import Mathlib

/-!
Verification development for the customer self-service scheduling core of the
`mcp-dataverse-server` package: the availability normalizer
(`dataverse.py`), the customer-facing slot post-processor and booking
orchestration (`scheduling_service_customer.py`), and the write-gate of the
tool surface (`server.py`).

Modelling conventions:
* instants are integers counting seconds since the Unix epoch (the source's
  `datetime` values carry microseconds; the model works at second
  granularity, which is enough to exhibit every sub-minute effect);
* Python strings are Lean `String`s; helpers such as `strip`, `lower`,
  `split(sep, maxsplit)` are re-implemented over character lists with
  Python's semantics;
* vendor (Dataverse) HTTP traffic is abstracted into environment records of
  pure functions: each network call becomes a lookup in such a record, and
  record-creating calls thread an explicit store with a fresh-id counter;
* dictionaries are insertion-ordered association lists with
  replace-in-place-on-existing-key semantics, matching CPython dicts.
-/

/-! ## Python string helpers -/

def pyWhitespace (c : Char) : Bool :=
  c = ' ' ∨ c = '\t' ∨ c = '\n' ∨ c = '\r' ∨ c = '\x0b' ∨ c = '\x0c'

/-- Python `str.strip()` (ASCII whitespace; the data handled here is ASCII). -/
def pyStripList (l : List Char) : List Char :=
  ((l.dropWhile pyWhitespace).reverse.dropWhile pyWhitespace).reverse

def pyStrip (s : String) : String :=
  String.mk (pyStripList s.data)

def pyLower (s : String) : String :=
  String.mk (s.data.map Char.toLower)

/-- Python `str.split(sep)` for a one-character separator: full split, empty
parts preserved (`"".split` gives `[""]`). -/
def splitCharList (c : Char) : List Char → List (List Char)
  | [] => [[]]
  | x :: xs =>
    match splitCharList c xs with
    | [] => [[]]
    | h :: t => if x = c then [] :: h :: t else (x :: h) :: t

def pySplit (c : Char) (s : String) : List String :=
  (splitCharList c s.data).map String.mk

/-- Python `str.split(sep, 1)` for a one-character separator. -/
def splitCharListMax1 (c : Char) : List Char → List (List Char)
  | [] => [[]]
  | x :: xs =>
    if x = c then [[], xs]
    else
      match splitCharListMax1 c xs with
      | [] => [[x]]
      | h :: t => (x :: h) :: t

def pySplitMax1 (c : Char) (s : String) : List String :=
  (splitCharListMax1 c s.data).map String.mk

/-- Python `str.split(sep, 2)` for a one-character separator. -/
def splitCharListMax2 (c : Char) : List Char → List (List Char)
  | [] => [[]]
  | x :: xs =>
    if x = c then [] :: splitCharListMax1 c xs
    else
      match splitCharListMax2 c xs with
      | [] => [[x]]
      | h :: t => (x :: h) :: t

def pySplitMax2 (c : Char) (s : String) : List String :=
  (splitCharListMax2 c s.data).map String.mk

/-- Python `str.count(ch)` for a single-character needle. -/
def pyCountChar (c : Char) (s : String) : Nat :=
  s.data.countP (· = c)

/-- Python `str.rstrip("/")`. -/
def pyRstripSlash (s : String) : String :=
  String.mk ((s.data.reverse.dropWhile (· = '/')).reverse)

/-- `dataverse._normalize_guid`: strip whitespace, remove surrounding braces. -/
def normalize_guid (value : String) : String :=
  let v := pyStrip value
  if v.startsWith "\x7b" ∧ v.endsWith "\x7d" then
    String.mk (v.data.drop 1 |>.dropLast)
  else v

/-! ## Insertion-ordered dictionaries (CPython dict semantics) -/

def dictLookup {α : Type} (l : List (String × α)) (k : String) : Option α :=
  match l.find? (fun kv => kv.1 = k) with
  | some kv => some kv.2
  | none => none

/-- `d[k] = v`: replace in place if the key exists, else append. -/
def dictInsert {α : Type} (l : List (String × α)) (k : String) (v : α) :
    List (String × α) :=
  match l with
  | [] => [(k, v)]
  | (k0, v0) :: rest =>
    if k0 = k then (k, v) :: rest else (k0, v0) :: dictInsert rest k v

/-! ## Stable sorting

CPython's `sorted`/`list.sort` is a stable sort by a key. For a total,
transitive comparison the stable sorted permutation is unique, so a stable
insertion sort is extensionally the same function; it is used here because
it evaluates by kernel reduction (every comparison passed below is total and
transitive). -/

def insertSorted {α : Type} (le : α → α → Bool) (x : α) : List α → List α
  | [] => [x]
  | y :: ys => if le y x then y :: insertSorted le x ys else x :: y :: ys

def stableSort {α : Type} (le : α → α → Bool) (l : List α) : List α :=
  l.foldl (fun acc x => insertSorted le x acc) []

/-! ## Calendar arithmetic (proleptic Gregorian, Howard Hinnant's algorithms)

The source relies on Python `datetime`/`zoneinfo`; the model re-derives the
same civil-calendar arithmetic explicitly. -/

def daysFromCivil (y : Int) (m d : Int) : Int :=
  let y1 : Int := y - (if m ≤ 2 then 1 else 0)
  let era : Int := y1 / 400
  let yoe : Int := y1 - era * 400
  let doy : Int := (153 * (m + (if m > 2 then -3 else 9)) + 2) / 5 + d - 1
  let doe : Int := yoe * 365 + yoe / 4 - yoe / 100 + doy
  era * 146097 + doe - 719468

def civilFromDays (z0 : Int) : Int × Int × Int :=
  let z : Int := z0 + 719468
  let era : Int := z / 146097
  let doe : Int := z - era * 146097
  let yoe : Int := (doe - doe / 1460 + doe / 36524 - doe / 146096) / 365
  let y : Int := yoe + era * 400
  let doy : Int := doe - (365 * yoe + yoe / 4 - yoe / 100)
  let mp : Int := (5 * doy + 2) / 153
  let d : Int := doy - (153 * mp + 2) / 5 + 1
  let m : Int := mp + (if mp < 10 then 3 else -9)
  (y + (if m ≤ 2 then 1 else 0), m, d)

def isLeapYear (y : Int) : Bool :=
  y % 4 = 0 ∧ (y % 100 ≠ 0 ∨ y % 400 = 0)

def daysInMonth (y : Int) (m : Int) : Int :=
  if m = 2 then (if isLeapYear y then 29 else 28)
  else if m = 4 ∨ m = 6 ∨ m = 9 ∨ m = 11 then 30
  else 31

/-! ## ISO-8601 rendering and parsing

`dataverse._iso` renders an aware datetime as UTC `YYYY-MM-DDTHH:MM:SSZ`
(microseconds are zero everywhere the system builds timestamps);
`dataverse._parse_iso_datetime` parses the subset of ISO-8601 this system
exchanges: `YYYY-MM-DDTHH:MM:SS` followed by nothing (naive, assumed UTC),
`Z`, or a `±HH:MM` offset. -/

def digitChar : Nat → Char
  | 0 => '0' | 1 => '1' | 2 => '2' | 3 => '3' | 4 => '4'
  | 5 => '5' | 6 => '6' | 7 => '7' | 8 => '8' | 9 => '9'
  | _ => '*'

def natDigitsAux : Nat → Nat → List Char
  | 0, _ => []
  | fuel + 1, n =>
    if n < 10 then [digitChar n]
    else natDigitsAux fuel (n / 10) ++ [digitChar (n % 10)]

def natDigits (n : Nat) : List Char := natDigitsAux (n + 1) n

def padNat (width : Nat) (n : Nat) : List Char :=
  let ds := natDigits n
  List.replicate (width - ds.length) '0' ++ ds

def yearChars (y : Int) : List Char :=
  if y < 0 then '-' :: padNat 4 (-y).toNat else padNat 4 y.toNat

def renderIsoChars (t : Int) : List Char :=
  let z := t / 86400
  let sod := t % 86400
  let ymd := civilFromDays z
  yearChars ymd.1 ++ '-' :: padNat 2 ymd.2.1.toNat ++ '-' :: padNat 2 ymd.2.2.toNat ++
    'T' :: padNat 2 (sod / 3600).toNat ++ ':' :: padNat 2 ((sod / 60) % 60).toNat ++
    ':' :: padNat 2 (sod % 60).toNat ++ ['Z']

/-- `dataverse._iso` (UTC instants only in this model). -/
def iso (t : Int) : String :=
  String.mk (renderIsoChars t)

def digitVal (c : Char) : Option Nat :=
  if 48 ≤ c.toNat ∧ c.toNat ≤ 57 then some (c.toNat - 48) else none

def digits2 (a b : Char) : Option Nat := do
  let x ← digitVal a
  let y ← digitVal b
  pure (10 * x + y)

def digits4 (a b c d : Char) : Option Nat := do
  let x ← digits2 a b
  let y ← digits2 c d
  pure (100 * x + y)

def parseDateTimeCore : List Char → Option Int
  | y1 :: y2 :: y3 :: y4 :: '-' :: m1 :: m2 :: '-' :: d1 :: d2 :: 'T' ::
      h1 :: h2 :: ':' :: n1 :: n2 :: ':' :: s1 :: s2 :: rest => do
    let y ← digits4 y1 y2 y3 y4
    let mo ← digits2 m1 m2
    let d ← digits2 d1 d2
    let h ← digits2 h1 h2
    let mi ← digits2 n1 n2
    let s ← digits2 s1 s2
    if 1 ≤ mo ∧ mo ≤ 12 ∧ 1 ≤ d ∧ (d : Int) ≤ daysInMonth y mo ∧
        h ≤ 23 ∧ mi ≤ 59 ∧ s ≤ 59 then
      let base : Int := daysFromCivil y mo d * 86400 + h * 3600 + mi * 60 + s
      match rest with
      | [] => pure base
      | '+' :: o1 :: o2 :: ':' :: o3 :: o4 :: [] => do
        let oh ← digits2 o1 o2
        let om ← digits2 o3 o4
        pure (base - (oh * 3600 + om * 60))
      | '-' :: o1 :: o2 :: ':' :: o3 :: o4 :: [] => do
        let oh ← digits2 o1 o2
        let om ← digits2 o3 o4
        pure (base + (oh * 3600 + om * 60))
      | _ => none
    else none
  | _ => none

/-- `dataverse._parse_iso_datetime`: strip, reject empty, turn a trailing `Z`
into `+00:00`, parse, convert to UTC. `none` models the `ValueError` raised
by the source (callers wrap the call in `try`/`except`). -/
def parse_iso_datetime (value : String) : Option Int :=
  let v := pyStripList value.data
  if v = [] then none
  else
    let v := if v.getLast? = some 'Z' then v.dropLast ++ ['+', '0', '0', ':', '0', '0'] else v
    parseDateTimeCore v

example : parse_iso_datetime "2026-01-15T09:00:00Z" = some 1768467600 := by decide
example : iso 1768467600 = "2026-01-15T09:00:00Z" := by decide
example : parse_iso_datetime "zzz" = none := by decide
example : parse_iso_datetime " 2026-01-15T10:00:00+01:00" = some 1768467600 := by decide

/-! ## Local civil time

`scheduling_service_customer.search_availability` pins
`local_tz = ZoneInfo("Europe/London")` (falling back to UTC only if the zone
database is unavailable). A `Tz` packages the two conversions Python
performs: `astimezone(local_tz)` (UTC instant to wall clock plus the PEP-495
`fold` flag) and aware-datetime-to-UTC (wall clock plus fold to instant). -/

structure Tz where
  toWall : Int → Int × Bool
  fromWall : Int → Bool → Int

def utcTz : Tz := { toWall := fun t => (t, false), fromWall := fun w _ => w }

def fixedTz (off : Int) : Tz :=
  { toWall := fun t => (t + off, false), fromWall := fun w _ => w - off }

/-- Day number (since the epoch) of the last Sunday of month `m` of year `y`
(1970-01-01 was a Thursday; day `d` is a Sunday iff `(d + 4) % 7 = 0`). -/
def lastSundayDay (y m : Int) : Int :=
  let d31 := daysFromCivil y m 31
  d31 - (d31 + 4) % 7

/-- UTC instant at which BST starts in year `y` (01:00 UTC, last Sunday of
March). -/
def bstStartUtc (y : Int) : Int := lastSundayDay y 3 * 86400 + 3600

/-- UTC instant at which BST ends in year `y` (01:00 UTC, last Sunday of
October). -/
def bstEndUtc (y : Int) : Int := lastSundayDay y 10 * 86400 + 3600

def yearOfInstant (t : Int) : Int := (civilFromDays (t / 86400)).1

/-- Europe/London UTC offset (seconds) at a UTC instant. -/
def londonOffAt (t : Int) : Int :=
  if bstStartUtc (yearOfInstant t) ≤ t ∧ t < bstEndUtc (yearOfInstant t) then 3600 else 0

/-- Europe/London UTC offset chosen for a wall-clock time together with its
PEP-495 fold: in the spring gap fold 0 selects the pre-transition offset; in
the autumn ambiguity fold 0 selects the first (BST) occurrence. -/
def londonOffFromWall (w : Int) (fold : Bool) : Int :=
  if w < lastSundayDay (yearOfInstant w) 3 * 86400 + 3600 then 0
  else if w < lastSundayDay (yearOfInstant w) 3 * 86400 + 3600 + 3600 then
    (if fold then 3600 else 0)
  else if w < lastSundayDay (yearOfInstant w) 10 * 86400 + 3600 then 3600
  else if w < lastSundayDay (yearOfInstant w) 10 * 86400 + 3600 + 3600 then
    (if fold then 0 else 3600)
  else 0

def londonTz : Tz :=
  { toWall := fun t =>
      (t + londonOffAt t,
       decide (bstEndUtc (yearOfInstant t) ≤ t ∧ t < bstEndUtc (yearOfInstant t) + 3600)),
    fromWall := fun w fold => w - londonOffFromWall w fold }

/-- Wall-clock half-hour rounding at the heart of
`_ceil_to_half_hour_local`: keep the minute when it is already 0 or 30 (but
zero the seconds, i.e. `replace(second=0, microsecond=0)`), round a minute
below 30 up to `:30`, and a minute above 30 up to the next hour. -/
def roundWallHalfHour (w : Int) : Int :=
  if w / 60 % 60 = 0 ∨ w / 60 % 60 = 30 then w - w % 60
  else if w / 60 % 60 < 30 then w - w % 60 + (30 - w / 60 % 60) * 60
  else w - w % 60 + (60 - w / 60 % 60) * 60

/-- `search_availability._ceil_to_half_hour_local`. -/
def ceil_to_half_hour_local (tz : Tz) (dtUtc : Int) : Int :=
  let wf := tz.toWall dtUtc
  tz.fromWall (roundWallHalfHour wf.1) wf.2

example : ceil_to_half_hour_local londonTz 1768467600 = 1768467600 := by decide
-- 2026-07-01T10:05:00Z is 11:05 BST; ceiling is 11:30 BST = 10:30 UTC.
example : ceil_to_half_hour_local londonTz (parse_iso_datetime "2026-07-01T10:05:00Z").get! =
    (parse_iso_datetime "2026-07-01T10:30:00Z").get! := by decide
-- Spring-forward 2026-03-29: 00:59:50 GMT rounds to wall 01:00, a gap time,
-- which fold 0 maps to 01:00 UTC (= 02:00 BST).
example : ceil_to_half_hour_local londonTz (parse_iso_datetime "2026-03-29T00:59:50Z").get! =
    (parse_iso_datetime "2026-03-29T01:00:00Z").get! := by decide
-- Fall-back 2026-10-25: 01:00:10 UTC shows wall 01:00:10 with fold 1 (GMT);
-- truncating the seconds keeps the same GMT reading.
example : ceil_to_half_hour_local londonTz (parse_iso_datetime "2026-10-25T01:00:10Z").get! =
    (parse_iso_datetime "2026-10-25T01:00:00Z").get! := by decide

/-! ## JSON-like diagnostic payloads -/

inductive JVal where
  | null : JVal
  | s : String → JVal
  | i : Int → JVal
  | b : Bool → JVal
  | arr : List JVal → JVal
  | obj : List (String × JVal) → JVal

def optStrJ : Option String → JVal
  | none => JVal.null
  | some v => JVal.s v

/-- Python `f"...{x}..."` rendering of an optional string (`None` prints as
`"None"`). -/
def pyShowOptStr : Option String → String
  | none => "None"
  | some v => v

/-! ## Availability Normalizer (`dataverse.search_field_service_availability`)

A raw vendor time-slot entry. Key-alias coalescing in the source
(`ts.get("Start") or ts.get("start") or ...`) is modelled by a single field
holding the first truthy alternative (`none` when every alternative is
absent or falsy); the same for the end, the resource id (coalesced over the
`Resource` dict/string shapes and top-level `ResourceId`) and the resource
name. `isDict` is false for non-dict list members; `isOrgPlaceholder` models
"the keys are exactly `@odata.type` and its value ends in `.organization`". -/

structure TsItem where
  isDict : Bool := true
  isOrgPlaceholder : Bool := false
  startRaw : Option String := none
  endRaw : Option String := none
  resourceId : Option String := none
  resourceName : Option String := none
deriving DecidableEq

/-- A raw action response; `timeSlots = none` models a response whose
`TimeSlots`/`timeSlots`/`Timeslots`/`timeslots` keys are all absent or not a
list. -/
structure FsaRaw where
  timeSlots : Option (List TsItem) := none
deriving DecidableEq

/-- Normalized slot shape `{slot_id, start, end, resource_id, resource_name}`
(the `raw` passthrough of the source is dropped from the model). -/
structure NSlot where
  slot_id : String
  startS : String
  endS : String
  resource_id : Option String
  resource_name : Option String
deriving DecidableEq

/-- `search_field_service_availability._looks_like_placeholder_entities`. -/
def looks_like_placeholder_entities (items : List TsItem) : Bool :=
  if items.isEmpty then false
  else (items.countP (fun it => it.isDict ∧ it.isOrgPlaceholder)) = items.length

/-- One iteration of the slot-building loop of `_normalize_time_slots`:
`none` when the item is skipped (`continue`). -/
def normalizeOneSlot (onlyResourceNorm : Option String) (ts : TsItem) : Option NSlot :=
  if ¬ ts.isDict then none
  else
    let start := match ts.startRaw with | some v => if v = "" then none else some v | none => none
    let endv := match ts.endRaw with | some v => if v = "" then none else some v | none => none
    let rid := ts.resourceId
    let keep :=
      match onlyResourceNorm with
      | none => true
      | some only =>
        match rid with
        | none => false
        | some r => normalize_guid r = only
    if keep then
      match start, endv with
      | some st, some en =>
        some { slot_id := (match rid with | some r => r | none => "unknown") ++ "|" ++ st ++ "|" ++ en,
               startS := st, endS := en, resource_id := rid, resource_name := ts.resourceName }
      | _, _ => none
    else none

/-- The guarded `slots.sort(key=lambda s: _parse_iso_datetime(str(s.get("start"))))`:
CPython computes every key before moving an element, so if any start fails to
parse the raised `ValueError` leaves the list unchanged (`except: pass`). -/
def startKeyLe (a b : NSlot) : Bool :=
  match parse_iso_datetime a.startS, parse_iso_datetime b.startS with
  | some x, some y => x ≤ y
  | some _, none => true
  | none, some _ => false
  | none, none => true

def sortSlotsGuarded (slots : List NSlot) : List NSlot :=
  if slots.all (fun s => (parse_iso_datetime s.startS).isSome) then
    stableSort startKeyLe slots
  else slots

/-- `search_field_service_availability._normalize_time_slots`. -/
def normalize_time_slots (maxTimeSlots : Int) (onlyResourceNorm : Option String)
    (rawResponse : FsaRaw) : List NSlot :=
  match rawResponse.timeSlots with
  | none => []
  | some items =>
    if looks_like_placeholder_entities items then []
    else
      let slots := items.filterMap (normalizeOneSlot onlyResourceNorm)
      let slots := sortSlotsGuarded slots
      if maxTimeSlots > 0 then slots.take maxTimeSlots.toNat else slots

/-- Result shape common to every return of
`search_field_service_availability`: `status`, optional `action`, optional
`message`, `details`, `slots`, `raw`. -/
structure FSAResult where
  status : String
  action : Option String := none
  message : Option String := none
  details : JVal := JVal.null
  slots : List NSlot := []
  rawJ : JVal := JVal.null

structure FsaArgs where
  startT : Int
  endT : Int
  duration_minutes : Int
  requirement_id : Option String := none
  max_time_slots : Int := 8
  max_resources : Int := 5
  only_bookable_resource_id : Option String := none
deriving DecidableEq

/-- Vendor environment for the availability search: probe answers, the
schedule-board-settings query, the per-payload outcomes of the two
requirement-based actions, and (opaquely) the requirement-less Option-B/UFX
pipeline of source lines 1531-1900, which no claim concerns: the requirement
branch returns before ever reaching it. `invoke action i` is the result of
`execute_unbound_action` on payload variant `i` (`IsWebApi` true/false):
`Except.error` is a raised exception, `.ok none` a non-dict body, and
`.ok (some raw)` a dict body. `scheduleBoardRows` is the list of
`msdyn_scheduleboardsettingid` values returned by the settings query. -/
structure DvEnv where
  probeAction : String → Bool
  scheduleBoardRows : Except String (List (Option String))
  invoke : String → Nat → Except String (Option FsaRaw)
  selfServiceResult : FsaArgs → FSAResult

/-- `search_field_service_availability._try_get_schedule_board_setting_id`:
returns the id when the first row carries a truthy one, and the error text
to accumulate under `msdyn_scheduleboardsettinges` when the query raised. -/
def try_get_schedule_board_setting_id (env : DvEnv) : Option String × Option String :=
  match env.scheduleBoardRows with
  | .error e => (none, some e)
  | .ok rows =>
    match rows.head? with
    | some (some v) => (if v = "" then none else some v, none)
    | _ => (none, none)

/-- `search_field_service_availability._try_requirement_based_action` over the
two payload variants: returns the slots of the first payload whose response
normalizes to a non-empty list, plus the `last_error` recorded into
`action_errors` when every payload failed or came back empty. -/
def tryReqActionGo (env : DvEnv) (action : String) (maxTS : Int) (onlyRes : Option String) :
    List Nat → Option String → Option String × List NSlot
  | [], lastError => (lastError, [])
  | idx :: rest, lastError =>
    match env.invoke action idx with
    | .error e => tryReqActionGo env action maxTS onlyRes rest (some e)
    | .ok none => tryReqActionGo env action maxTS onlyRes rest lastError
    | .ok (some raw) =>
      let slots := normalize_time_slots maxTS onlyRes raw
      if slots.isEmpty then tryReqActionGo env action maxTS onlyRes rest lastError
      else (none, slots)

def try_requirement_based_action (env : DvEnv) (action : String) (maxTS : Int)
    (onlyRes : Option String) : Option String × List NSlot :=
  tryReqActionGo env action maxTS onlyRes [0, 1] none

def jStrEntries (l : List (String × String)) : List (String × JVal) :=
  l.map (fun kv => (kv.1, JVal.s kv.2))

/-- The `inputs` sub-object of the requirement-branch error result. -/
def fsaInputsJ (a : FsaArgs) (reqId : String) : JVal :=
  JVal.obj
    [("requirement_id", JVal.s reqId),
     ("start", JVal.s (iso a.startT)),
     ("end", JVal.s (iso a.endT)),
     ("duration_minutes", JVal.i a.duration_minutes),
     ("work_location", JVal.i 690970000),
     ("latitude", JVal.s "52.41882"),
     ("longitude", JVal.s "-1.78605")]

/-- `only_resource_norm` (source lines 1291-1296; `_normalize_guid` is
total, so the exception arm is dead). -/
def fsaOnlyResourceNorm : Option String → Option String
  | some r => if pyStrip r = "" then none else some (normalize_guid r)
  | none => none

/-- The `action_errors` accumulated before the action attempts: the
schedule-board-settings query failure, when it raised. -/
def reqErrs0 : Option String → List (String × String)
  | some e => [("msdyn_scheduleboardsettinges", e)]
  | none => []

/-- The requirement-id branch of `search_field_service_availability`
(source lines 1461-1529). All three exits `return`; control never reaches
the requirement-group / UFX paths. -/
def requirementBranch (env : DvEnv) (a : FsaArgs) (requirementIdRaw : String) : FSAResult :=
  let sb := try_get_schedule_board_setting_id env
  let errs0 : List (String × String) := reqErrs0 sb.2
  let reqId := normalize_guid requirementIdRaw
  match sb.1 with
  | none =>
    { status := "error", action := none,
      message := some "Unable to load Schedule Board Setting id required for requirement-based availability.",
      details := JVal.obj (jStrEntries errs0), slots := [],
      rawJ := JVal.obj [("action_errors", JVal.obj (jStrEntries errs0))] }
  | some _sbSettingId =>
    let legacy := "msdyn_SearchResourceAvailability"
    let v2 := "msdyn_SearchResourceAvailabilityV2"
    let onlyRes := fsaOnlyResourceNorm a.only_bookable_resource_id
    let step1 :=
      if env.probeAction legacy then
        let r := try_requirement_based_action env legacy a.max_time_slots onlyRes
        (some legacy, [legacy],
         (match r.1 with | some e => errs0 ++ [(legacy, e)] | none => errs0), r.2)
      else (none, ([] : List String), errs0, ([] : List NSlot))
    match step1 with
    | (lastAction1, attempted1, errs1, slots1) =>
      if slots1.isEmpty = false then
        { status := "ok", action := lastAction1, slots := slots1,
          rawJ := JVal.obj
            [("note", JVal.s "Requirement-based availability search (legacy)."),
             ("action_errors", JVal.obj (jStrEntries errs1)),
             ("attempted_actions", JVal.arr (attempted1.map JVal.s))] }
      else
        let step2 :=
          if env.probeAction v2 then
            let r := try_requirement_based_action env v2 a.max_time_slots onlyRes
            (some v2, attempted1 ++ [v2],
             (match r.1 with | some e => errs1 ++ [(v2, e)] | none => errs1), r.2)
          else (lastAction1, attempted1, errs1, ([] : List NSlot))
        match step2 with
        | (lastAction2, attempted2, errs2, slots2) =>
          if slots2.isEmpty = false then
            { status := "ok", action := lastAction2, slots := slots2,
              rawJ := JVal.obj
                [("note", JVal.s "Requirement-based availability search (V2)."),
                 ("action_errors", JVal.obj (jStrEntries errs2)),
                 ("attempted_actions", JVal.arr (attempted2.map JVal.s))] }
          else
            { status := "error", action := lastAction2,
              message := some "Requirement-based availability returned no slots.",
              details := JVal.obj (jStrEntries errs2 ++
                [("attempted_actions", JVal.arr (attempted2.map JVal.s)),
                 ("inputs", fsaInputsJ a reqId)]),
              slots := [],
              rawJ := JVal.obj
                [("action_errors", JVal.obj (jStrEntries errs2)),
                 ("attempted_actions", JVal.arr (attempted2.map JVal.s))] }

/-- `dataverse.search_field_service_availability`. With a requirement id the
function runs (only) the requirement branch; without one it runs the
Option-B / UFX self-service pipeline, abstracted as `env.selfServiceResult`
(no claim depends on its internals). -/
def search_field_service_availability (env : DvEnv) (a : FsaArgs) : FSAResult :=
  match a.requirement_id with
  | some r =>
    if r = "" then env.selfServiceResult a else requirementBranch env a r
  | none => env.selfServiceResult a

/-! ## Slot Post-Processor
(`scheduling_service_customer.CustomerSelfServiceSchedulingService.search_availability`,
source lines 290-415)

Raw input slots are the dict entries of the normalizer result: `none` fields
model absent or non-string values. -/

structure RawInSlot where
  slot_idRaw : Option String := none
  startRaw : Option String := none
  endRaw : Option String := none
deriving DecidableEq

/-- Resource-id recovery from a raw `slot_id` (source lines 324-332):
`split("|", 2)`, keep the stripped first part when there are exactly three
parts and it is non-blank, else `"unknown"`. -/
def slotResourceId (slotIdRaw : Option String) : String :=
  match slotIdRaw with
  | none => "unknown"
  | some sid =>
    let parts := pySplitMax2 '|' sid
    if parts.length = 3 then
      match parts.head? with
      | some p0 => if pyStrip p0 = "" then "unknown" else pyStrip p0
      | none => "unknown"
    else "unknown"

/-- Business-hours adjustment of an already rounded start (source lines
347-355): if the local wall clock is before 08:00, move to 08:00 local and
re-apply the half-hour ceiling. Python compares the two aware datetimes by
their UTC instants. -/
def adjustStartToOpen (tz : Tz) (startDt : Int) : Int :=
  if tz.fromWall (tz.toWall startDt).1 (tz.toWall startDt).2 <
      tz.fromWall ((tz.toWall startDt).1 - (tz.toWall startDt).1 % 86400 + 8 * 3600)
        (tz.toWall startDt).2 then
    ceil_to_half_hour_local tz
      (tz.fromWall ((tz.toWall startDt).1 - (tz.toWall startDt).1 % 86400 + 8 * 3600)
        (tz.toWall startDt).2)
  else startDt

/-- Close-of-business (18:00 local) of the day of `startDt`, as a UTC
instant (source lines 349/355: `close_local.astimezone(timezone.utc)`). -/
def closeOfDayUtc (tz : Tz) (startDt : Int) : Int :=
  let wf := tz.toWall startDt
  tz.fromWall (wf.1 - wf.1 % 86400 + 18 * 3600) wf.2

/-- Per-slot processing (source lines 316-361): parse, drop degenerate
windows, clamp to the lead time, round, enforce business hours, cap the end
at close of the start day, and drop windows shorter than the duration.
Returns `(start, cappedEnd, resourceId)`. -/
def processSlot (tz : Tz) (leadTimeUtc : Int) (durationSec : Int) (slot : RawInSlot) :
    Option (Int × Int × String) :=
  match slot.startRaw, slot.endRaw with
  | some startRaw, some endRaw =>
    let resourceId := slotResourceId slot.slot_idRaw
    match parse_iso_datetime startRaw, parse_iso_datetime endRaw with
    | some startDt0, some endDt0 =>
      if endDt0 ≤ startDt0 then none
      else
        let startDt1 := if startDt0 < leadTimeUtc then leadTimeUtc else startDt0
        let startDt2 := ceil_to_half_hour_local tz startDt1
        let startDt3 := adjustStartToOpen tz startDt2
        let endDt1 := min endDt0 (closeOfDayUtc tz startDt3)
        if endDt1 < startDt3 + durationSec then none
        else some (startDt3, endDt1, resourceId)
    | _, _ => none
  | _, _ => none

/-- The `exact_windows` dict (source lines 315-365), keyed by
`f"{start_iso}|{end_iso}"`. -/
def exactStep (tz : Tz) (leadTimeUtc durationSec : Int)
    (acc : List (String × (Int × Int × String))) (slot : RawInSlot) :
    List (String × (Int × Int × String)) :=
  match processSlot tz leadTimeUtc durationSec slot with
  | none => acc
  | some w => dictInsert acc (iso w.1 ++ "|" ++ iso w.2.1) w

def exactWindows (tz : Tz) (leadTimeUtc durationSec : Int) (raws : List RawInSlot) :
    List (String × (Int × Int × String)) :=
  raws.foldl (exactStep tz leadTimeUtc durationSec) []

/-- The `min_end_by_start` dict (source lines 367-376), keyed by `start_iso`.
The stored value keeps the window start alongside `(end, resource_id)`: the
source recovers it by re-parsing its own serialization
(`_parse_iso_datetime(start_iso)` at line 380); the model carries the
instant that produced the key. -/
def minEndStep (durationSec : Int) (acc : List (String × (Int × Int × String)))
    (kv : String × (Int × Int × String)) : List (String × (Int × Int × String)) :=
  if kv.2.2.1 < kv.2.1 + durationSec then acc
  else
    match dictLookup acc (iso kv.2.1) with
    | none => acc ++ [(iso kv.2.1, kv.2)]
    | some cur => if kv.2.2.1 < cur.2.1 then dictInsert acc (iso kv.2.1) kv.2 else acc

def minEndByStart (durationSec : Int) (ws : List (String × (Int × Int × String))) :
    List (String × (Int × Int × String)) :=
  ws.foldl (minEndStep durationSec) []

/-- `sorted(min_end_by_start.items(), key=lambda kv: kv[0])`: ascending by
the ISO start string. -/
def keyStrLe (a b : String × (Int × Int × String)) : Bool := a.1 ≤ b.1

/-- Output slot. `startT`/`endT` are the instants the two rendered fields
were produced from (`startS = iso startT`, `endS = iso endT` by
construction). -/
structure OutSlot where
  slot_number : Nat
  slot_id : String
  startS : String
  endS : String
  display : String
  startT : Int
  endT : Int
deriving DecidableEq

def mkOutSlot (n : Nat) (resourceId : String) (startDt endDt : Int) : OutSlot :=
  { slot_number := n, slot_id := resourceId ++ "|" ++ iso startDt ++ "|" ++ iso endDt,
    startS := iso startDt, endS := iso endDt,
    display := iso startDt ++ " to " ++ iso endDt,
    startT := startDt, endT := endDt }

/-- The final assembly loop (source lines 378-397): walk the sorted entries,
skip a start whose retained window cannot hold the duration, emit
`[start, start + duration)` slots numbered from 1, and stop once `max_slots`
(when positive) entries have been emitted. -/
def buildSlots (maxSlots durationSec : Int) :
    List (String × (Int × Int × String)) → Nat → List OutSlot
  | [], _ => []
  | kv :: rest, countSoFar =>
    if kv.2.2.1 < kv.2.1 + durationSec then buildSlots maxSlots durationSec rest countSoFar
    else
      if 0 < maxSlots ∧ maxSlots ≤ (countSoFar : Int) + 1 then
        [mkOutSlot (countSoFar + 1) kv.2.2.2 kv.2.1 (kv.2.1 + durationSec)]
      else
        mkOutSlot (countSoFar + 1) kv.2.2.2 kv.2.1 (kv.2.1 + durationSec) ::
          buildSlots maxSlots durationSec rest (countSoFar + 1)

/-- The whole post-processing pipeline applied to the raw slots, with
`lead_time_utc = now + 30min` (source line 298). -/
def postProcess (tz : Tz) (nowUtc : Int) (durationMinutes maxSlots : Int)
    (raws : List RawInSlot) : List OutSlot :=
  buildSlots maxSlots (durationMinutes * 60)
    (stableSort keyStrLe (minEndByStart (durationMinutes * 60)
      (exactWindows tz (nowUtc + 30 * 60) (durationMinutes * 60) raws)))
    0

/-- Result of the customer-level `search_availability`. -/
structure OutAvail where
  status : String
  action : Option String := none
  count : Nat := 0
  slots : List OutSlot := []
  message : Option String := none
  details : JVal := JVal.null
  rawJ : JVal := JVal.null

/-- The `{status, action, message, details}` sub-report recorded for each leg
of the generic fallback (source lines 267-280). -/
def subReport (r : FSAResult) : JVal :=
  JVal.obj
    [("status", JVal.s r.status),
     ("action", optStrJ r.action),
     ("message", optStrJ r.message),
     ("details", r.details)]

/-- The substituted result when requirement-based availability came back
empty but a generic search found slots (source lines 263-286). -/
def fallbackRaw (raw generic : FSAResult) : FSAResult :=
  { status := "ok",
    action := some ("fallback:" ++ pyShowOptStr generic.action),
    message := some "Requirement-based availability returned no slots; using generic availability for slot suggestions.",
    details := JVal.obj
      [("requirement_based", subReport raw), ("generic", subReport generic)],
    slots := generic.slots,
    rawJ := JVal.obj [("requirement_based", raw.rawJ), ("generic", generic.rawJ)] }

/-- How the raw result converts into RawInSlot dict views for the
post-processor. -/
def rawInSlots (slots : List NSlot) : List RawInSlot :=
  slots.map (fun s => { slot_idRaw := some s.slot_id, startRaw := some s.startS, endRaw := some s.endS })

structure CsArgs where
  requirement_id : Option String := none
  window_startT : Int
  window_endT : Int
  duration_minutes : Int
  max_slots : Int := 8
deriving DecidableEq

/-- `CustomerSelfServiceSchedulingService.search_availability` (source lines
209-415). The short-TTL demo availability cache (lines 228-236 and 409-413)
re-serves a previously computed output verbatim and is omitted: every
invariant proved about a fresh response extends to a cached copy of it. The
generic-search fallback call is wrapped in `try/except` in the source; the
environment model is total, so the exception arm is vacuous here. -/
def csPrimaryArgs (demoFast : Bool) (demoBookableResourceId : Option String)
    (a : CsArgs) : FsaArgs :=
  { startT := a.window_startT, endT := a.window_endT,
    duration_minutes := a.duration_minutes,
    requirement_id := if demoFast then none else a.requirement_id,
    max_time_slots := if demoFast then a.max_slots else a.max_slots * 3,
    max_resources := 5,
    only_bookable_resource_id := demoBookableResourceId }

def csGenericArgs (demoBookableResourceId : Option String) (a : CsArgs) : FsaArgs :=
  { startT := a.window_startT, endT := a.window_endT,
    duration_minutes := a.duration_minutes, requirement_id := none,
    max_time_slots := a.max_slots * 3, max_resources := 5,
    only_bookable_resource_id := demoBookableResourceId }

/-- The `raw` result after the optional generic-search substitution (source
lines 240-288). -/
def csRawResult (env : DvEnv) (demoFast : Bool) (demoBookableResourceId : Option String)
    (a : CsArgs) : FSAResult :=
  if demoFast = false ∧ a.requirement_id.getD "" ≠ "" ∧
      (search_field_service_availability env
        (csPrimaryArgs demoFast demoBookableResourceId a)).slots.isEmpty then
    if (search_field_service_availability env (csGenericArgs demoBookableResourceId a)).slots.isEmpty then
      search_field_service_availability env (csPrimaryArgs demoFast demoBookableResourceId a)
    else
      fallbackRaw
        (search_field_service_availability env (csPrimaryArgs demoFast demoBookableResourceId a))
        (search_field_service_availability env (csGenericArgs demoBookableResourceId a))
  else search_field_service_availability env (csPrimaryArgs demoFast demoBookableResourceId a)

def customerSearchAvailability (env : DvEnv) (demoFast : Bool)
    (demoBookableResourceId : Option String) (nowUtc : Int) (a : CsArgs) : OutAvail :=
  { status := (csRawResult env demoFast demoBookableResourceId a).status,
    action := (csRawResult env demoFast demoBookableResourceId a).action,
    count := (postProcess londonTz nowUtc a.duration_minutes a.max_slots
      (rawInSlots (csRawResult env demoFast demoBookableResourceId a).slots)).length,
    slots := postProcess londonTz nowUtc a.duration_minutes a.max_slots
      (rawInSlots (csRawResult env demoFast demoBookableResourceId a).slots),
    message := (csRawResult env demoFast demoBookableResourceId a).message,
    details := (csRawResult env demoFast demoBookableResourceId a).details,
    rawJ := (csRawResult env demoFast demoBookableResourceId a).rawJ }

/-! ## Booking Orchestrator
(`scheduling_service_customer.CustomerSelfServiceSchedulingService`) -/

structure BookingObj where
  id : Option String := none
  startS : String := ""
  endS : String := ""
deriving DecidableEq

/-- Vendor-side record store, tracking the durable records the orchestrator
creates. `nextId` drives fresh-id generation (the vendor mints GUIDs; the
model mints `rec-<n>`). -/
structure VendorStore where
  nextId : Nat := 0
  cases : List String := []
  workOrders : List String := []
  bookings : List String := []
deriving DecidableEq

def freshId (n : Nat) : String := "rec-" ++ String.mk (natDigits n)

def storeCreateCase (st : VendorStore) : String × VendorStore :=
  (freshId st.nextId,
   { st with nextId := st.nextId + 1, cases := st.cases ++ [freshId st.nextId] })

def storeCreateWorkOrder (st : VendorStore) : String × VendorStore :=
  (freshId st.nextId,
   { st with nextId := st.nextId + 1, workOrders := st.workOrders ++ [freshId st.nextId] })

def storeCreateBooking (st : VendorStore) : String × VendorStore :=
  (freshId st.nextId,
   { st with nextId := st.nextId + 1, bookings := st.bookings ++ [freshId st.nextId] })

/-- A row of `wait_for_work_order_resource_requirements` output. -/
structure ReqCand where
  msdyn_resourcerequirementid : Option String := none
  msdyn_name : String := ""
  createdon : Option String := none
deriving DecidableEq, Inhabited

def reqCandJ (it : ReqCand) : JVal :=
  JVal.obj
    [("msdyn_resourcerequirementid", optStrJ it.msdyn_resourcerequirementid),
     ("msdyn_name", JVal.s it.msdyn_name),
     ("createdon", optStrJ it.createdon)]

/-- `_get_or_wait_for_requirement_id_for_work_order._created_on`: parse
`createdon`, falling back to `datetime.max` (modelled as `none`, ordered
greatest) when absent or unparseable. -/
def createdOnKey (it : ReqCand) : Option Int :=
  match it.createdon with
  | some v => parse_iso_datetime v
  | none => none

def createdOnLe (a b : ReqCand) : Bool :=
  match createdOnKey a, createdOnKey b with
  | some x, some y => x ≤ y
  | some _, none => true
  | none, some _ => false
  | none, none => true

/-- `_get_or_wait_for_requirement_id_for_work_order` applied to the final
outcome of the bounded poll (`timeout_seconds=25.0`,
`poll_interval_seconds=1.0`, `top=10`; the poll's real-time behaviour is
abstracted into the candidate list the vendor eventually returned — the
empty list models expiry of the 25s timeout). -/
def get_or_wait_for_requirement_id_for_work_order (demoJobName : String)
    (items : List ReqCand) : Option String × List ReqCand :=
  if items.isEmpty then (none, [])
  else
    let sortedItems := stableSort createdOnLe items
    let chosen :=
      if sortedItems.length > 1 then
        match sortedItems.filter (fun it => pyStrip it.msdyn_name ≠ demoJobName) with
        | [] => sortedItems.headD default
        | c :: _ => c
      else sortedItems.headD default
    match chosen.msdyn_resourcerequirementid with
    | some rid => (if rid = "" then none else some rid, items)
    | none => (none, items)

/-- Service construction parameters (`__init__`). -/
structure SvcCfg where
  demo_fast : Bool := true
  demo_bookable_resource_id : Option String := none
  demo_job_name : String := "Boiler Repair (Self Service)"
deriving DecidableEq

/-- Environment of the orchestrator: the availability environment plus the
remaining vendor interactions of the scheduling flow. `bookingOutcome`
models `DataverseClient.create_booking_for_requirement`: a raised exception,
or success whose returned `booking` dict carries an id (`true`, in which
case the created record enters the store) or not (`false`). -/
structure SchedEnv where
  dv : DvEnv
  base_url : String := ""
  api_version : String := ""
  parse_preferred_local : String → Int
  waitCandidates : String → List ReqCand
  bookingOutcome : Except String Bool

def createBookingForRequirement (env : SchedEnv) (st : VendorStore) :
    Except String (Option String × VendorStore) :=
  match env.bookingOutcome with
  | .error e => .error e
  | .ok false => .ok (none, st)
  | .ok true =>
    match storeCreateBooking st with
    | (bid, st2) => .ok (some bid, st2)

structure BookResult where
  status : String
  message : Option String := none
  booking : Option BookingObj := none
  details : JVal := JVal.null
  rawJ : JVal := JVal.null

/-- First pass of the slot-id selection loops in `book_requirement`: an
exact `(start, end)` match among concrete (non-"unknown") three-part slot
ids. -/
def findExactSlot (targetStart targetEnd : String) : List NSlot → Option String
  | [] => none
  | s :: rest =>
    let sid := s.slot_id
    if pyCountChar '|' sid ≠ 2 then findExactSlot targetStart targetEnd rest
    else
      match pySplitMax2 '|' sid with
      | [rid, st, en] =>
        if pyLower (pyStrip rid) = "unknown" then findExactSlot targetStart targetEnd rest
        else if st = targetStart ∧ en = targetEnd then some sid
        else findExactSlot targetStart targetEnd rest
      | _ => findExactSlot targetStart targetEnd rest

/-- Second pass: the first concrete slot id. -/
def findFirstConcreteSlot : List NSlot → Option String
  | [] => none
  | s :: rest =>
    let sid := s.slot_id
    if pyCountChar '|' sid ≠ 2 then findFirstConcreteSlot rest
    else
      match (pySplitMax1 '|' sid).head? with
      | some p0 => if pyLower (pyStrip p0) = "unknown" then findFirstConcreteSlot rest else some sid
      | none => findFirstConcreteSlot rest

/-- `CustomerSelfServiceSchedulingService.book_requirement` (source lines
417-617). -/
def book_requirement (cfg : SvcCfg) (env : SchedEnv) (st : VendorStore)
    (requirementId : String) (scheduleStartUtc scheduleEndUtc : Int)
    (_workOrderId : Option String) : BookResult × VendorStore :=
  let durationMinutes := (scheduleEndUtc - scheduleStartUtc) / 60
  if durationMinutes ≤ 0 then
    ({ status := "error",
       message := some "Invalid booking window: duration must be > 0 minutes.",
       details := JVal.obj
         [("start", JVal.s (iso scheduleStartUtc)), ("end", JVal.s (iso scheduleEndUtc))] }, st)
  else
    let targetStart := iso scheduleStartUtc
    let targetEnd := iso scheduleEndUtc
    if cfg.demo_fast ∧ cfg.demo_bookable_resource_id.isSome then
      match createBookingForRequirement env st with
      | .error e =>
        ({ status := "error",
           message := some "Failed to create Bookable Resource Booking record.",
           details := JVal.s e }, st)
      | .ok (bid, st2) =>
        ({ status := "ok",
           booking := some { id := bid, startS := targetStart, endS := targetEnd } }, st2)
    else
      let availability := search_field_service_availability env.dv
        { startT := scheduleStartUtc, endT := scheduleEndUtc,
          duration_minutes := durationMinutes, requirement_id := some requirementId,
          max_time_slots := 25, max_resources := 5,
          only_bookable_resource_id := cfg.demo_bookable_resource_id }
      let chosen1 :=
        match findExactSlot targetStart targetEnd availability.slots with
        | some sid => some sid
        | none => findFirstConcreteSlot availability.slots
      let chosenAndFallback :=
        match chosen1 with
        | some sid => some (sid, false)
        | none =>
          let genericPreview := search_field_service_availability env.dv
            { startT := scheduleStartUtc, endT := scheduleEndUtc,
              duration_minutes := durationMinutes, requirement_id := none,
              max_time_slots := 5, max_resources := 3,
              only_bookable_resource_id := cfg.demo_bookable_resource_id }
          match findExactSlot targetStart targetEnd genericPreview.slots with
          | some sid => some (sid, true)
          | none =>
            match findFirstConcreteSlot genericPreview.slots with
            | some sid => some (sid, true)
            | none => none
      match chosenAndFallback with
      | none =>
        ({ status := "error",
           message := some "No concrete resource slots returned for this requirement; cannot create Bookable Resource Booking directly.",
           details := JVal.obj
             [("requirement_id", JVal.s requirementId),
              ("requested_start", JVal.s targetStart),
              ("requested_end", JVal.s targetEnd),
              ("availability_status", JVal.s availability.status)] }, st)
      | some (_sid, _usedGeneric) =>
        match createBookingForRequirement env st with
        | .error e =>
          ({ status := "error",
             message := some "Failed to create Bookable Resource Booking record.",
             details := JVal.s e }, st)
        | .ok (bid, st2) =>
          ({ status := "ok",
             booking := some { id := bid, startS := targetStart, endS := targetEnd } }, st2)

structure SchedArgs where
  contact_id : String
  window_id : String
  preferred_start_local : String
  duration_minutes : Int
  priority : String := "normal"
  create_case : Bool := true
  scenario : String := "boiler_repair"

/-- `scheduling_service_customer._compute_idempotency_key`. -/
def compute_idempotency_key (environmentId contactId : String)
    (windowStartUtc windowEndUtc preferredStartUtc : Int)
    (durationMinutes : Int) (scenario : String) : String :=
  pyLower (pyStrip environmentId) ++ "|" ++
  pyLower (pyStrip (if scenario = "" then "field_service" else scenario)) ++ "|" ++
  normalize_guid contactId ++ "|" ++
  iso windowStartUtc ++ "|" ++ iso windowEndUtc ++ "|" ++ iso preferredStartUtc ++ "|" ++
  toString durationMinutes

structure ScheduleResult where
  status : String
  idempotent_replay : Bool := false
  message : Option String := none
  caseId : Option String := none
  workOrderId : Option String := none
  requirementId : Option String := none
  booking : Option BookingObj := none
  requestedStart : Option String := none
  requestedEnd : Option String := none
  windowStartS : Option String := none
  windowEndS : Option String := none
  slotId : Option String := none
  details : JVal := JVal.null

structure SchedState where
  store : VendorStore
  idem : List (String × ScheduleResult)

/-- The availability-validation loop of `schedule_customer_request` (source
lines 734-742). The whole validation block sits in a `try`; a parse failure
raises out of the loop and the `except: pass` skips validation (`none`). -/
def validationMatches (preferredStart preferredEnd : Int) : List NSlot → Option Bool
  | [] => some false
  | s :: rest =>
    match parse_iso_datetime s.startS, parse_iso_datetime s.endS with
    | some a, some b =>
      if a ≤ preferredStart ∧ preferredEnd ≤ b then some true
      else validationMatches preferredStart preferredEnd rest
    | _, _ => none

/-- The fresh-chain continuation of `schedule_customer_request` (everything
after the idempotency check, source lines 678-809). The `update_record`
constraining the auto-created requirement (lines 704-719) is a PATCH on an
existing record: it creates nothing and is not observable by any claim, so
the store passes through it unchanged. -/
def scheduleFresh (cfg : SvcCfg) (env : SchedEnv) (st : SchedState)
    (_contactId : String) (windowStartUtc windowEndUtc preferredStartUtc preferredEndUtc : Int)
    (durationMinutes : Int) (createCase : Bool) (key : String) :
    ScheduleResult × SchedState :=
  let caseStep : Option String × VendorStore :=
    if createCase then
      match storeCreateCase st.store with
      | (cid, s1) => (some cid, s1)
    else (none, st.store)
  match caseStep with
  | (caseId, store1) =>
    match storeCreateWorkOrder store1 with
    | (workOrderId, store2) =>
      let wr := get_or_wait_for_requirement_id_for_work_order cfg.demo_job_name
        (env.waitCandidates workOrderId)
      match wr.1 with
      | none =>
        ({ status := "error",
           message := some "Work Order was created, but no auto-created Resource Requirement was found.",
           caseId := caseId, workOrderId := some workOrderId,
           details := JVal.obj
             [("hint", JVal.s "Check Field Service settings/automation for work order requirement creation."),
              ("candidates", JVal.arr (wr.2.map reqCandJ))] },
         { st with store := store2 })
      | some requirementId =>
        let windowMinutes := (windowEndUtc - windowStartUtc) / 60
        let validation :=
          if cfg.demo_fast = false ∧ windowMinutes > durationMinutes + 5 then
            let availability := search_field_service_availability env.dv
              { startT := windowStartUtc, endT := windowEndUtc,
                duration_minutes := durationMinutes, requirement_id := some requirementId,
                max_time_slots := 50, max_resources := 5,
                only_bookable_resource_id := cfg.demo_bookable_resource_id }
            validationMatches preferredStartUtc preferredEndUtc availability.slots
          else some true
        if validation = some false then
          ({ status := "error",
             message := some "Requested time is not available for this requirement.",
             caseId := caseId, workOrderId := some workOrderId,
             requirementId := some requirementId,
             requestedStart := some (iso preferredStartUtc),
             requestedEnd := some (iso preferredEndUtc),
             windowStartS := some (iso windowStartUtc),
             windowEndS := some (iso windowEndUtc) },
           { st with store := store2 })
        else
          match book_requirement cfg env store2 requirementId preferredStartUtc preferredEndUtc
              (some workOrderId) with
          | (bookingResult, store3) =>
            let outBase : ScheduleResult :=
              { status := "ok",
                caseId := caseId, workOrderId := some workOrderId,
                requirementId := some requirementId,
                booking := bookingResult.booking,
                requestedStart := some (iso preferredStartUtc),
                requestedEnd := some (iso preferredEndUtc),
                slotId := some (iso preferredStartUtc ++ "|" ++ iso preferredEndUtc) }
            if bookingResult.status ≠ "ok" then
              ({ outBase with status := bookingResult.status, details := bookingResult.rawJ },
               { st with store := store3 })
            else
              let bookingId := pyStrip ((outBase.booking.bind (fun b => b.id)).getD "")
              if bookingId ≠ "" ∧ ¬ store3.bookings.contains bookingId then
                ({ outBase with
                    status := "error",
                    message := some "Booking was returned by the booking flow but could not be confirmed in Dataverse.",
                    details := JVal.s "bookableresourcebookings lookup failed" },
                 { st with store := store3 })
              else
                let finalRes := outBase
                (finalRes, { store := store3, idem := dictInsert st.idem key finalRes })

def parseWindowId (windowId : String) : Option (Int × Int) :=
  match pySplitMax1 '|' windowId with
  | [a, b] =>
    match parse_iso_datetime a, parse_iso_datetime b with
    | some x, some y => some (x, y)
    | _, _ => none
  | _ => none

/-- `CustomerSelfServiceSchedulingService.schedule_customer_request` (source
lines 619-809). `Except.error` models the `RuntimeError` raised for a
malformed `window_id`; every other path returns a structured result. -/
def schedule_customer_request (cfg : SvcCfg) (env : SchedEnv) (st : SchedState)
    (a : SchedArgs) : Except String ScheduleResult × SchedState :=
  let contactId := normalize_guid a.contact_id
  match parseWindowId a.window_id with
  | none => (.error "Invalid window_id. Expected format: <windowStartIso>|<windowEndIso>", st)
  | some (windowStartUtc, windowEndUtc) =>
    let preferredStartUtc := env.parse_preferred_local a.preferred_start_local
    let preferredEndUtc := preferredStartUtc + a.duration_minutes * 60
    if preferredStartUtc < windowStartUtc ∨ preferredEndUtc > windowEndUtc then
      (.ok { status := "error",
             message := some "Requested appointment time is outside the selected availability window.",
             windowStartS := some (iso windowStartUtc), windowEndS := some (iso windowEndUtc),
             requestedStart := some (iso preferredStartUtc),
             requestedEnd := some (iso preferredEndUtc) }, st)
    else
      let envId := pyLower (pyRstripSlash env.base_url) ++ "|" ++ pyLower (pyStrip env.api_version)
      let key := compute_idempotency_key envId contactId windowStartUtc windowEndUtc
        preferredStartUtc a.duration_minutes a.scenario
      let freshRun := fun () =>
        match scheduleFresh cfg env st contactId windowStartUtc windowEndUtc preferredStartUtc
            preferredEndUtc a.duration_minutes a.create_case key with
        | (r, st2) => (Except.ok r, st2)
      match dictLookup st.idem key with
      | some existing =>
        if (existing.booking.bind (fun b => b.id)).getD "" ≠ "" then
          let bookingId := pyStrip ((existing.booking.bind (fun b => b.id)).getD "")
          if bookingId ≠ "" then
            if st.store.bookings.contains bookingId then
              (.ok { existing with idempotent_replay := true }, st)
            else freshRun ()
          else freshRun ()
        else freshRun ()
      | none => freshRun ()

/-! ## Write-gated tool surface (`server.build_mcp`)

Every write-path tool checks `settings.allow_writes` before doing anything
else. Each tool is a function of the gate, an environment holding its
(post-gate) body, and its arguments; the second component of the result is
the list of vendor-gateway calls performed. The bodies after the gate issue
vendor traffic and are abstracted into the environment — the claims concern
only the gate, which the model reproduces verbatim, including each tool's
`blocked` message. -/

structure ToolResult where
  status : String
  message : Option String := none
deriving DecidableEq

structure ToolEnv where
  updateContactCall : String → Except String Unit
  updateCaseCall : String → Except String Unit
  updateWorkOrderCall : String → Except String Unit
  bookBoilerRepairBody : ToolResult × List String
  scheduleBoilerRepairBody : ToolResult × List String
  bookBoilerRepairForContactBody : ToolResult × List String
  createBookingForWorkOrderBody : ToolResult × List String
  createBookingForWorkOrderSlotNumberBody : ToolResult × List String
  bookExistingRequirementForSlotBody : ToolResult × List String

def blockedResult (msg : String) : ToolResult × List String :=
  ({ status := "blocked", message := some msg }, [])

/-- `server.update_contact` (source lines 431-447). -/
def update_contact (allowWrites : Bool) (env : ToolEnv) (contactId : String) :
    ToolResult × List String :=
  if allowWrites = false then
    blockedResult "Writes disabled. Set DATAVERSE_ALLOW_WRITES=true to enable PATCH/POST."
  else
    match env.updateContactCall contactId with
    | .ok _ => ({ status := "ok" }, ["PATCH contacts"])
    | .error _ => ({ status := "error", message := some "Failed to update contact." }, ["PATCH contacts"])

/-- `server.update_case`. -/
def update_case (allowWrites : Bool) (env : ToolEnv) (caseId : String) :
    ToolResult × List String :=
  if allowWrites = false then
    blockedResult "Writes disabled. Set DATAVERSE_ALLOW_WRITES=true to enable PATCH/POST."
  else
    match env.updateCaseCall caseId with
    | .ok _ => ({ status := "ok" }, ["PATCH incidents"])
    | .error _ => ({ status := "error", message := some "Failed to update case." }, ["PATCH incidents"])

/-- `server.update_work_order`. -/
def update_work_order (allowWrites : Bool) (env : ToolEnv) (workOrderId : String) :
    ToolResult × List String :=
  if allowWrites = false then
    blockedResult "Writes disabled. Set DATAVERSE_ALLOW_WRITES=true to enable PATCH/POST."
  else
    match env.updateWorkOrderCall workOrderId with
    | .ok _ => ({ status := "ok" }, ["PATCH msdyn_workorders"])
    | .error _ => ({ status := "error", message := some "Failed to update work order." }, ["PATCH msdyn_workorders"])

/-- `server.book_boiler_repair`. -/
def book_boiler_repair (allowWrites : Bool) (env : ToolEnv) : ToolResult × List String :=
  if allowWrites = false then
    blockedResult "Writes disabled. Set DATAVERSE_ALLOW_WRITES=true to enable creating cases, work orders and bookings."
  else env.bookBoilerRepairBody

/-- `server.schedule_boiler_repair`. -/
def schedule_boiler_repair (allowWrites : Bool) (env : ToolEnv) : ToolResult × List String :=
  if allowWrites = false then
    blockedResult "Writes disabled. Set DATAVERSE_ALLOW_WRITES=true to enable scheduling."
  else env.scheduleBoilerRepairBody

/-- `server.book_boiler_repair_for_contact`. -/
def book_boiler_repair_for_contact (allowWrites : Bool) (env : ToolEnv) :
    ToolResult × List String :=
  if allowWrites = false then
    blockedResult "Writes disabled. Set DATAVERSE_ALLOW_WRITES=true to enable creating cases, work orders and bookings."
  else env.bookBoilerRepairForContactBody

/-- `server.create_booking_for_work_order`. -/
def create_booking_for_work_order (allowWrites : Bool) (env : ToolEnv) :
    ToolResult × List String :=
  if allowWrites = false then
    blockedResult "Writes disabled. Set DATAVERSE_ALLOW_WRITES=true to enable creating bookings."
  else env.createBookingForWorkOrderBody

/-- `server.create_booking_for_work_order_slot_number` (source lines
1289-1352): the gate precedes the availability lookup and the delegated
booking call, both inside the body. -/
def create_booking_for_work_order_slot_number (allowWrites : Bool) (env : ToolEnv) :
    ToolResult × List String :=
  if allowWrites = false then
    blockedResult "Writes disabled. Set DATAVERSE_ALLOW_WRITES=true to enable creating bookings."
  else env.createBookingForWorkOrderSlotNumberBody

/-- `server.book_existing_requirement_for_slot`. -/
def book_existing_requirement_for_slot (allowWrites : Bool) (env : ToolEnv) :
    ToolResult × List String :=
  if allowWrites = false then
    blockedResult "Writes disabled. Set DATAVERSE_ALLOW_WRITES=true to enable scheduling."
  else env.bookExistingRequirementForSlotBody

/-! ## Lemma toolkit: splitting, digits, dictionaries -/

theorem splitCharList_ne_nil (c : Char) (l : List Char) : splitCharList c l ≠ [] := by
  induction l with
  | nil => simp [splitCharList]
  | cons x xs ih =>
    simp only [splitCharList]
    cases h : splitCharList c xs with
    | nil => exact absurd h ih
    | cons a t => dsimp only; split <;> simp

theorem splitCharList_no_sep (c : Char) (l : List Char) (h : c ∉ l) :
    splitCharList c l = [l] := by
  induction l with
  | nil => rfl
  | cons x xs ih =>
    have hx : x ≠ c := fun hc => h (hc ▸ List.mem_cons_self x xs)
    have hxs : c ∉ xs := fun hc => h (List.mem_cons_of_mem _ hc)
    simp only [splitCharList, ih hxs]
    simp [hx]

theorem splitCharList_two (c : Char) (b d : List Char) (hb : c ∉ b) (hd : c ∉ d) :
    splitCharList c (b ++ c :: d) = [b, d] := by
  induction b with
  | nil => simp [splitCharList, splitCharList_no_sep c d hd]
  | cons x xs ih =>
    have hx : x ≠ c := fun hc => hb (hc ▸ List.mem_cons_self x xs)
    have hxs : c ∉ xs := fun hc => hb (List.mem_cons_of_mem _ hc)
    rw [List.cons_append]
    simp only [splitCharList]
    rw [ih hxs]
    simp [hx]

theorem splitCharList_three (c : Char) (a b d : List Char)
    (ha : c ∉ a) (hb : c ∉ b) (hd : c ∉ d) :
    splitCharList c (a ++ (c :: (b ++ (c :: d)))) = [a, b, d] := by
  induction a with
  | nil => simp [splitCharList, splitCharList_two c b d hb hd]
  | cons x xs ih =>
    have hx : x ≠ c := fun hc => ha (hc ▸ List.mem_cons_self x xs)
    have hxs : c ∉ xs := fun hc => ha (List.mem_cons_of_mem _ hc)
    rw [List.cons_append]
    simp only [splitCharList]
    rw [ih hxs]
    simp [hx]

theorem mem_splitCharList_not_sep (c : Char) (l : List Char) :
    ∀ part ∈ splitCharList c l, c ∉ part := by
  induction l with
  | nil => intro part hp; simp [splitCharList] at hp; simp [hp]
  | cons x xs ih =>
    intro part hp
    simp only [splitCharList] at hp
    cases h : splitCharList c xs with
    | nil => exact absurd h (splitCharList_ne_nil c xs)
    | cons a t =>
      rw [h] at hp
      by_cases hx : x = c
      · simp [hx] at hp
        rcases hp with hp | hp | hp
        · simp [hp]
        · exact hp ▸ ih a (h ▸ List.mem_cons_self a t)
        · exact ih part (h ▸ List.mem_cons_of_mem a hp)
      · simp [hx] at hp
        rcases hp with hp | hp
        · subst hp
          intro hc
          rcases List.mem_cons.mp hc with hc | hc
          · exact hx hc.symm
          · exact ih a (h ▸ List.mem_cons_self a t) hc
        · exact ih part (h ▸ List.mem_cons_of_mem a hp)

theorem digitChar_digit (n : Nat) (h : n < 10) :
    48 ≤ (digitChar n).toNat ∧ (digitChar n).toNat ≤ 57 := by
  interval_cases n <;> decide

theorem mem_natDigitsAux_digit (fuel n : Nat) :
    ∀ ch ∈ natDigitsAux fuel n, 48 ≤ ch.toNat ∧ ch.toNat ≤ 57 := by
  induction fuel generalizing n with
  | zero => intro ch hch; simp [natDigitsAux] at hch
  | succ fuel ih =>
    intro ch hch
    simp only [natDigitsAux] at hch
    by_cases hn : n < 10
    · rw [if_pos hn] at hch
      simp at hch
      exact hch ▸ digitChar_digit n hn
    · rw [if_neg hn] at hch
      rcases List.mem_append.mp hch with h | h
      · exact ih (n / 10) ch h
      · simp at h
        exact h ▸ digitChar_digit (n % 10) (Nat.mod_lt _ (by decide))

theorem mem_padNat_digit (w n : Nat) :
    ∀ ch ∈ padNat w n, 48 ≤ ch.toNat ∧ ch.toNat ≤ 57 := by
  intro ch hch
  rcases List.mem_append.mp hch with h | h
  · have := List.eq_of_mem_replicate h
    subst this; decide
  · exact mem_natDigitsAux_digit _ _ ch h

theorem pipe_not_mem_renderIsoChars (t : Int) : '|' ∉ renderIsoChars t := by
  intro h
  simp only [renderIsoChars] at h
  have dig : ∀ (w n : Nat), '|' ∈ padNat w n → False := by
    intro w n hmem
    have := mem_padNat_digit w n '|' hmem
    revert this; decide
  have year : '|' ∈ yearChars (civilFromDays (t / 86400)).1 → False := by
    intro hy
    unfold yearChars at hy
    split at hy
    · rcases List.mem_cons.mp hy with h | h
      · exact absurd h (by decide)
      · exact dig _ _ h
    · exact dig _ _ hy
  rcases List.mem_append.mp h with h | h
  rotate_left
  · simp at h
  rcases List.mem_append.mp h with h | h
  rotate_left
  · rcases List.mem_cons.mp h with h | h
    · exact absurd h (by decide)
    · exact dig _ _ h
  rcases List.mem_append.mp h with h | h
  rotate_left
  · rcases List.mem_cons.mp h with h | h
    · exact absurd h (by decide)
    · exact dig _ _ h
  rcases List.mem_append.mp h with h | h
  rotate_left
  · rcases List.mem_cons.mp h with h | h
    · exact absurd h (by decide)
    · exact dig _ _ h
  rcases List.mem_append.mp h with h | h
  rotate_left
  · rcases List.mem_cons.mp h with h | h
    · exact absurd h (by decide)
    · exact dig _ _ h
  rcases List.mem_append.mp h with h | h
  · exact year h
  · rcases List.mem_cons.mp h with h | h
    · exact absurd h (by decide)
    · exact dig _ _ h

theorem pipe_not_mem_iso_data (t : Int) : '|' ∉ (iso t).data :=
  pipe_not_mem_renderIsoChars t

theorem pySplit_three (r s e : String)
    (hr : '|' ∉ r.data) (hs : '|' ∉ s.data) (he : '|' ∉ e.data) :
    pySplit '|' (r ++ "|" ++ s ++ "|" ++ e) = [r, s, e] := by
  have hdata : (r ++ "|" ++ s ++ "|" ++ e).data =
      r.data ++ ('|' :: (s.data ++ ('|' :: e.data))) := by
    simp [String.data_append]
  simp only [pySplit, hdata]
  rw [splitCharList_three '|' r.data s.data e.data hr hs he]
  rfl

/-! ## Claim C6: the write gate -/

/-- C6. For every write-path tool of the caller-facing surface
(`update_contact`, `update_case`, `update_work_order`, `book_boiler_repair`,
`schedule_boiler_repair`, `book_boiler_repair_for_contact`,
`create_booking_for_work_order`, `create_booking_for_work_order_slot_number`,
`book_existing_requirement_for_slot`), calling it with the write gate off
returns a structured result with `status = "blocked"` and performs zero
vendor-gateway calls. -/
theorem write_gate_blocks_all_write_tools (env : ToolEnv) (cid caseId woId : String) :
    ((update_contact false env cid).1.status = "blocked" ∧ (update_contact false env cid).2 = []) ∧
    ((update_case false env caseId).1.status = "blocked" ∧ (update_case false env caseId).2 = []) ∧
    ((update_work_order false env woId).1.status = "blocked" ∧ (update_work_order false env woId).2 = []) ∧
    ((book_boiler_repair false env).1.status = "blocked" ∧ (book_boiler_repair false env).2 = []) ∧
    ((schedule_boiler_repair false env).1.status = "blocked" ∧ (schedule_boiler_repair false env).2 = []) ∧
    ((book_boiler_repair_for_contact false env).1.status = "blocked" ∧ (book_boiler_repair_for_contact false env).2 = []) ∧
    ((create_booking_for_work_order false env).1.status = "blocked" ∧ (create_booking_for_work_order false env).2 = []) ∧
    ((create_booking_for_work_order_slot_number false env).1.status = "blocked" ∧ (create_booking_for_work_order_slot_number false env).2 = []) ∧
    ((book_existing_requirement_for_slot false env).1.status = "blocked" ∧ (book_existing_requirement_for_slot false env).2 = []) := by
  refine ⟨⟨rfl, rfl⟩, ⟨rfl, rfl⟩, ⟨rfl, rfl⟩, ⟨rfl, rfl⟩, ⟨rfl, rfl⟩, ⟨rfl, rfl⟩,
    ⟨rfl, rfl⟩, ⟨rfl, rfl⟩, ⟨rfl, rfl⟩⟩

/-! ## Dictionary and pipeline invariants -/

theorem mem_dictInsert {α : Type} (l : List (String × α)) (k : String) (v : α) :
    ∀ kv ∈ dictInsert l k v, kv ∈ l ∨ kv = (k, v) := by
  induction l with
  | nil => intro kv h; simp [dictInsert] at h; simp [h]
  | cons hd tl ih =>
    intro kv h
    simp only [dictInsert] at h
    split at h
    · rcases List.mem_cons.mp h with h | h
      · right; exact h
      · left; exact List.mem_cons_of_mem _ h
    · rcases List.mem_cons.mp h with h | h
      · left; exact h ▸ List.mem_cons_self hd tl
      · rcases ih kv h with h | h
        · left; exact List.mem_cons_of_mem _ h
        · right; exact h

theorem mem_keys_dictInsert {α : Type} (l : List (String × α)) (k : String) (v : α) :
    ∀ k1 ∈ (dictInsert l k v).map Prod.fst, k1 ∈ l.map Prod.fst ∨ k1 = k := by
  intro k1 h
  rcases List.mem_map.mp h with ⟨kv, hkv, hfst⟩
  rcases mem_dictInsert l k v kv hkv with h | h
  · left; exact hfst ▸ List.mem_map_of_mem Prod.fst h
  · right; rw [← hfst, h]

theorem keys_nodup_dictInsert {α : Type} (l : List (String × α)) (k : String) (v : α)
    (h : (l.map Prod.fst).Nodup) : ((dictInsert l k v).map Prod.fst).Nodup := by
  induction l with
  | nil => simp [dictInsert]
  | cons hd tl ih =>
    simp only [dictInsert]
    split
    · rename_i heq
      simp only [List.map_cons, List.nodup_cons] at h ⊢
      exact ⟨heq ▸ h.1, h.2⟩
    · rename_i hne
      simp only [List.map_cons, List.nodup_cons] at h ⊢
      refine ⟨fun hmem => ?_, ih h.2⟩
      rcases mem_keys_dictInsert tl k v hd.1 hmem with hm | hm
      · exact h.1 hm
      · exact hne hm

theorem dictLookup_none_not_mem_keys {α : Type} (l : List (String × α)) (k : String)
    (h : dictLookup l k = none) : k ∉ l.map Prod.fst := by
  intro hmem
  rcases List.mem_map.mp hmem with ⟨kv, hkv, hfst⟩
  simp only [dictLookup] at h
  cases hfind : l.find? (fun kv => kv.1 = k) with
  | some kv0 => rw [hfind] at h; simp at h
  | none =>
    have := List.find?_eq_none.mp hfind kv hkv
    simp [hfst] at this

theorem mem_exactStep (tz : Tz) (lead d : Int) (acc : List (String × (Int × Int × String)))
    (slot : RawInSlot) :
    ∀ kv ∈ exactStep tz lead d acc slot,
      kv ∈ acc ∨ processSlot tz lead d slot = some kv.2 := by
  intro kv h
  unfold exactStep at h
  cases hp : processSlot tz lead d slot with
  | none => rw [hp] at h; exact Or.inl h
  | some w =>
    rw [hp] at h
    rcases mem_dictInsert _ _ _ kv h with h | h
    · exact Or.inl h
    · right; rw [h]

theorem mem_exactWindows_go (tz : Tz) (lead d : Int) :
    ∀ (raws : List RawInSlot) (acc : List (String × (Int × Int × String))),
      ∀ kv ∈ raws.foldl (exactStep tz lead d) acc,
        kv ∈ acc ∨ ∃ raw ∈ raws, processSlot tz lead d raw = some kv.2 := by
  intro raws
  induction raws with
  | nil => intro acc kv h; exact Or.inl h
  | cons r rest ih =>
    intro acc kv h
    simp only [List.foldl_cons] at h
    rcases ih _ kv h with hacc | ⟨raw, hraw, hp⟩
    · rcases mem_exactStep tz lead d acc r kv hacc with h1 | h1
      · exact Or.inl h1
      · exact Or.inr ⟨r, List.mem_cons_self r rest, h1⟩
    · exact Or.inr ⟨raw, List.mem_cons_of_mem r hraw, hp⟩

theorem mem_exactWindows (tz : Tz) (lead d : Int) (raws : List RawInSlot) :
    ∀ kv ∈ exactWindows tz lead d raws, ∃ raw ∈ raws, processSlot tz lead d raw = some kv.2 := by
  intro kv h
  rcases mem_exactWindows_go tz lead d raws [] kv h with h0 | h0
  · simp at h0
  · exact h0

theorem mem_minEndStep (d : Int) (acc : List (String × (Int × Int × String)))
    (w0 : String × (Int × Int × String)) :
    ∀ kv ∈ minEndStep d acc w0,
      kv ∈ acc ∨ (kv.1 = iso kv.2.1 ∧ kv.2.1 + d ≤ kv.2.2.1 ∧ kv.2 = w0.2) := by
  intro kv h
  unfold minEndStep at h
  split at h
  · exact Or.inl h
  · rename_i hfit
    split at h
    · rcases List.mem_append.mp h with h | h
      · exact Or.inl h
      · simp only [List.mem_singleton] at h
        right
        rw [h]
        exact ⟨rfl, show w0.2.1 + d ≤ w0.2.2.1 by omega, rfl⟩
    · split at h
      · rcases mem_dictInsert _ _ _ kv h with h | h
        · exact Or.inl h
        · right
          rw [h]
          exact ⟨rfl, show w0.2.1 + d ≤ w0.2.2.1 by omega, rfl⟩
      · exact Or.inl h

theorem mem_minEndByStart_go (d : Int) :
    ∀ (ws acc : List (String × (Int × Int × String))),
      ∀ kv ∈ ws.foldl (minEndStep d) acc,
        kv ∈ acc ∨
          (kv.1 = iso kv.2.1 ∧ kv.2.1 + d ≤ kv.2.2.1 ∧ ∃ kv0 ∈ ws, kv0.2 = kv.2) := by
  intro ws
  induction ws with
  | nil => intro acc kv h; exact Or.inl h
  | cons w0 rest ih =>
    intro acc kv h
    simp only [List.foldl_cons] at h
    rcases ih _ kv h with hacc | ⟨hk, hb, kv0, hkv0, hv⟩
    · rcases mem_minEndStep d acc w0 kv hacc with h1 | ⟨hk, hb, hv⟩
      · exact Or.inl h1
      · exact Or.inr ⟨hk, hb, w0, List.mem_cons_self w0 rest, hv.symm⟩
    · exact Or.inr ⟨hk, hb, kv0, List.mem_cons_of_mem w0 hkv0, hv⟩

theorem mem_minEndByStart (d : Int) (ws : List (String × (Int × Int × String))) :
    ∀ kv ∈ minEndByStart d ws,
      kv.1 = iso kv.2.1 ∧ kv.2.1 + d ≤ kv.2.2.1 ∧ ∃ kv0 ∈ ws, kv0.2 = kv.2 := by
  intro kv h
  rcases mem_minEndByStart_go d ws [] kv h with h0 | h0
  · simp at h0
  · exact h0

theorem keys_nodup_minEndStep (d : Int) (acc : List (String × (Int × Int × String)))
    (w0 : String × (Int × Int × String)) (h : (acc.map Prod.fst).Nodup) :
    ((minEndStep d acc w0).map Prod.fst).Nodup := by
  unfold minEndStep
  split
  · exact h
  · split
    · rename_i hlook
      rw [List.map_append]
      simp only [List.map_cons, List.map_nil]
      rw [List.nodup_append]
      refine ⟨h, List.nodup_singleton _, ?_⟩
      intro k1 hk1 hk2
      simp only [List.mem_singleton] at hk2
      exact dictLookup_none_not_mem_keys acc _ hlook (hk2 ▸ hk1)
    · split
      · exact keys_nodup_dictInsert acc _ _ h
      · exact h

theorem keys_nodup_minEndByStart_go (d : Int) :
    ∀ (ws acc : List (String × (Int × Int × String))),
      (acc.map Prod.fst).Nodup →
      ((ws.foldl (minEndStep d) acc).map Prod.fst).Nodup := by
  intro ws
  induction ws with
  | nil => intro acc h; exact h
  | cons w0 rest ih =>
    intro acc h
    simp only [List.foldl_cons]
    exact ih _ (keys_nodup_minEndStep d acc w0 h)

theorem keys_nodup_minEndByStart (d : Int) (ws : List (String × (Int × Int × String))) :
    ((minEndByStart d ws).map Prod.fst).Nodup :=
  keys_nodup_minEndByStart_go d ws [] (by simp)

/-! ## Stable sort lemmas -/

theorem insertSorted_perm {α : Type} (le : α → α → Bool) (x : α) (l : List α) :
    (insertSorted le x l).Perm (x :: l) := by
  induction l with
  | nil => exact List.Perm.refl _
  | cons y ys ih =>
    simp only [insertSorted]
    split
    · exact ((ih.cons y).trans (List.Perm.swap x y ys))
    · exact List.Perm.refl _

theorem stableSort_go_perm {α : Type} (le : α → α → Bool) :
    ∀ (l acc : List α), (l.foldl (fun acc x => insertSorted le x acc) acc).Perm (acc ++ l) := by
  intro l
  induction l with
  | nil => intro acc; simp
  | cons x xs ih =>
    intro acc
    simp only [List.foldl_cons]
    refine (ih (insertSorted le x acc)).trans ?_
    have h1 : (insertSorted le x acc ++ xs).Perm ((x :: acc) ++ xs) :=
      (insertSorted_perm le x acc).append_right xs
    refine h1.trans ?_
    simp only [List.cons_append]
    exact List.perm_middle.symm

theorem stableSort_perm {α : Type} (le : α → α → Bool) (l : List α) :
    (stableSort le l).Perm l := by
  have := stableSort_go_perm le l []
  simpa [stableSort] using this

theorem insertSorted_pairwise {α : Type} (le : α → α → Bool)
    (htrans : ∀ a b c, le a b = true → le b c = true → le a c = true)
    (htot : ∀ a b, le a b = true ∨ le b a = true) (x : α) (l : List α)
    (h : l.Pairwise (le · · = true)) :
    (insertSorted le x l).Pairwise (le · · = true) := by
  induction l with
  | nil => simp [insertSorted]
  | cons y ys ih =>
    simp only [insertSorted]
    rcases List.pairwise_cons.mp h with ⟨hy, hys⟩
    split
    · rename_i hyx
      rw [List.pairwise_cons]
      refine ⟨?_, ih hys⟩
      intro a ha
      have := (insertSorted_perm le x ys).mem_iff.mp ha
      rcases List.mem_cons.mp this with rfl | hmem
      · exact hyx
      · exact hy a hmem
    · rename_i hyx
      have hxy : le x y = true := by
        rcases htot x y with h1 | h1
        · exact h1
        · exact absurd h1 hyx
      rw [List.pairwise_cons]
      refine ⟨?_, h⟩
      intro a ha
      rcases List.mem_cons.mp ha with rfl | hmem
      · exact hxy
      · exact htrans x y a hxy (hy a hmem)

theorem stableSort_pairwise {α : Type} (le : α → α → Bool)
    (htrans : ∀ a b c, le a b = true → le b c = true → le a c = true)
    (htot : ∀ a b, le a b = true ∨ le b a = true) (l : List α) :
    (stableSort le l).Pairwise (le · · = true) := by
  have go : ∀ (l acc : List α), acc.Pairwise (le · · = true) →
      (l.foldl (fun acc x => insertSorted le x acc) acc).Pairwise (le · · = true) := by
    intro l
    induction l with
    | nil => intro acc h; exact h
    | cons x xs ih =>
      intro acc h
      simp only [List.foldl_cons]
      exact ih _ (insertSorted_pairwise le htrans htot x acc h)
  exact go l [] (by simp)

/-! ## Assembly-loop lemmas and post-processor invariants -/

theorem mem_buildSlots (maxSlots d : Int) :
    ∀ (l : List (String × (Int × Int × String))) (n : Nat), ∀ s ∈ buildSlots maxSlots d l n,
      ∃ kv ∈ l, kv.2.1 + d ≤ kv.2.2.1 ∧
        s = mkOutSlot s.slot_number kv.2.2.2 kv.2.1 (kv.2.1 + d) := by
  intro l
  induction l with
  | nil => intro n s h; simp [buildSlots] at h
  | cons kv rest ih =>
    intro n s h
    simp only [buildSlots] at h
    split at h
    · rcases ih n s h with ⟨kv0, hkv0, hb, hs⟩
      exact ⟨kv0, List.mem_cons_of_mem kv hkv0, hb, hs⟩
    · rename_i hfit
      split at h
      · simp only [List.mem_singleton] at h
        refine ⟨kv, List.mem_cons_self kv rest, by omega, ?_⟩
        rw [h]
        rfl
      · rcases List.mem_cons.mp h with h | h
        · refine ⟨kv, List.mem_cons_self kv rest, by omega, ?_⟩
          rw [h]
          rfl
        · rcases ih (n + 1) s h with ⟨kv0, hkv0, hb, hs⟩
          exact ⟨kv0, List.mem_cons_of_mem kv hkv0, hb, hs⟩

theorem buildSlots_startS_sublist (maxSlots d : Int) :
    ∀ (l : List (String × (Int × Int × String))) (n : Nat),
      ((buildSlots maxSlots d l n).map OutSlot.startS).Sublist
        (l.map (fun kv => iso kv.2.1)) := by
  intro l
  induction l with
  | nil => intro n; simp [buildSlots]
  | cons kv rest ih =>
    intro n
    simp only [buildSlots]
    split
    · exact (ih n).trans (List.sublist_cons_self _ _)
    · split
      · simp only [List.map_cons, List.map_singleton]
        exact (List.nil_sublist _).cons₂ (iso kv.2.1)
      · simp only [List.map_cons]
        exact (ih (n + 1)).cons₂ (iso kv.2.1)

/-- Every post-processed slot arises from processing some raw slot, holds
the requested duration exactly, and renders its fields from its instants. -/
theorem mem_postProcess (tz : Tz) (nowUtc durMin maxSlots : Int) (raws : List RawInSlot) :
    ∀ s ∈ postProcess tz nowUtc durMin maxSlots raws,
      ∃ raw ∈ raws, ∃ w : Int × Int × String,
        processSlot tz (nowUtc + 30 * 60) (durMin * 60) raw = some w ∧
        w.1 + durMin * 60 ≤ w.2.1 ∧
        s = mkOutSlot s.slot_number w.2.2 w.1 (w.1 + durMin * 60) := by
  intro s h
  unfold postProcess at h
  rcases mem_buildSlots _ _ _ _ s h with ⟨kv, hkv, hb, hs⟩
  have hkv2 : kv ∈ minEndByStart (durMin * 60) (exactWindows tz (nowUtc + 30 * 60) (durMin * 60) raws) :=
    (stableSort_perm keyStrLe _).mem_iff.mp hkv
  rcases mem_minEndByStart _ _ kv hkv2 with ⟨_, _, kv0, hkv0, hv⟩
  rcases mem_exactWindows _ _ _ _ kv0 hkv0 with ⟨raw, hraw, hp⟩
  exact ⟨raw, hraw, kv.2, by rw [← hv]; exact hp, hb, hs⟩

/-- The post-processed start strings are pairwise distinct: they are a
sublist of the keys of `min_end_by_start`, which is a string-keyed dict. -/
theorem postProcess_starts_nodup (tz : Tz) (nowUtc durMin maxSlots : Int)
    (raws : List RawInSlot) :
    ((postProcess tz nowUtc durMin maxSlots raws).map OutSlot.startS).Nodup := by
  unfold postProcess
  set d := durMin * 60 with hd
  set sorted := stableSort keyStrLe
    (minEndByStart d (exactWindows tz (nowUtc + 30 * 60) d raws)) with hsorted
  have hsub := buildSlots_startS_sublist maxSlots d sorted 0
  have hinv : ∀ kv ∈ sorted, iso kv.2.1 = kv.1 := by
    intro kv hkv
    have : kv ∈ minEndByStart d (exactWindows tz (nowUtc + 30 * 60) d raws) :=
      (stableSort_perm keyStrLe _).mem_iff.mp hkv
    exact (mem_minEndByStart _ _ kv this).1.symm
  have hmapeq : sorted.map (fun kv => iso kv.2.1) = sorted.map Prod.fst :=
    List.map_congr_left hinv
  have hkeys : (sorted.map Prod.fst).Nodup := by
    have hperm : (sorted.map Prod.fst).Perm
        ((minEndByStart d (exactWindows tz (nowUtc + 30 * 60) d raws)).map Prod.fst) :=
      (stableSort_perm keyStrLe _).map Prod.fst
    exact hperm.nodup_iff.mpr (keys_nodup_minEndByStart _ _)
  exact List.Nodup.sublist (hmapeq ▸ hsub) hkeys

theorem customerSearchAvailability_slots_eq (env : DvEnv) (demoFast : Bool)
    (demoRes : Option String) (nowUtc : Int) (a : CsArgs) :
    (customerSearchAvailability env demoFast demoRes nowUtc a).slots =
      postProcess londonTz nowUtc a.duration_minutes a.max_slots
        (rawInSlots (csRawResult env demoFast demoRes a).slots) := rfl

/-- C10. Every slot in the post-processed output of the customer
`search_availability` has `end = start + duration_minutes` exactly — its
instants differ by the requested duration and both rendered fields are the
renderings of those instants — and the output `start` strings are pairwise
distinct. -/
theorem customer_slots_exact_duration_and_distinct_starts (env : DvEnv) (demoFast : Bool)
    (demoRes : Option String) (nowUtc : Int) (a : CsArgs) :
    (∀ s ∈ (customerSearchAvailability env demoFast demoRes nowUtc a).slots,
      s.endT = s.startT + a.duration_minutes * 60 ∧
      s.startS = iso s.startT ∧ s.endS = iso s.endT) ∧
    ((customerSearchAvailability env demoFast demoRes nowUtc a).slots.map
      OutSlot.startS).Nodup := by
  constructor
  · intro s h
    rw [customerSearchAvailability_slots_eq] at h
    rcases mem_postProcess londonTz nowUtc a.duration_minutes a.max_slots _ s h with
      ⟨raw, _, w, _, _, hs⟩
    rw [hs]
    exact ⟨rfl, rfl, rfl⟩
  · rw [customerSearchAvailability_slots_eq]
    exact postProcess_starts_nodup londonTz nowUtc a.duration_minutes a.max_slots _

/-! ## Concrete environment used by witnesses -/

def witnessSelfServiceSlot : NSlot :=
  { slot_id := "r1|2026-01-15T09:00:00Z|2026-01-15T17:00:00Z",
    startS := "2026-01-15T09:00:00Z", endS := "2026-01-15T17:00:00Z",
    resource_id := some "r1", resource_name := none }

def witnessDvEnv : DvEnv :=
  { probeAction := fun _ => false,
    scheduleBoardRows := .ok [],
    invoke := fun _ _ => .error "offline",
    selfServiceResult := fun _ =>
      { status := "ok", action := some "msdyn_FpsAction/403",
        slots := [witnessSelfServiceSlot] } }

def witnessCsArgs : CsArgs :=
  { requirement_id := none, window_startT := 1768464000, window_endT := 1768500000,
    duration_minutes := 120, max_slots := 8 }

-- now = 2026-01-15T08:00:00Z; the 09:00Z-17:00Z raw slot passes the
-- lead-time, rounding and business-hours rules unchanged.
example :
    ((customerSearchAvailability witnessDvEnv true none 1768464000 witnessCsArgs).slots.map
      (fun s => (s.startS, s.endS))) =
    [("2026-01-15T09:00:00Z", "2026-01-15T11:00:00Z")] := by decide

def c10Slot : OutSlot :=
  { slot_number := 1,
    slot_id := "r1|2026-01-15T09:00:00Z|2026-01-15T11:00:00Z",
    startS := "2026-01-15T09:00:00Z", endS := "2026-01-15T11:00:00Z",
    display := "2026-01-15T09:00:00Z to 2026-01-15T11:00:00Z",
    startT := 1768467600, endT := 1768474800 }

/-- Witness for C10 at a concrete input. -/
theorem customer_slots_exact_duration_witness :
    c10Slot.endT = c10Slot.startT + 120 * 60 ∧
    c10Slot.startS = iso c10Slot.startT ∧ c10Slot.endS = iso c10Slot.endT :=
  (customer_slots_exact_duration_and_distinct_starts witnessDvEnv true none 1768464000
    witnessCsArgs).1 c10Slot (by decide)

/-! ## Claim C2: tightest fit at a shared start -/

theorem str_append_left_cancel (a b c : String) (h : a ++ b = a ++ c) : b = c := by
  have hd := congrArg String.data h
  rw [String.data_append, String.data_append] at hd
  have heq := List.append_cancel_left hd
  cases b; cases c
  exact congrArg String.mk heq

theorem stableSort_singleton {α : Type} (le : α → α → Bool) (x : α) :
    stableSort le [x] = [x] := rfl

/-- C2, amended: when two raw slots process to the same rounded start with
different capped ends `e1 < e2`, both fitting the requested duration, then
in either arrival order — tighter window first (the keep branch of the
dedup) or looser window first (the replace branch) — the post-processor
keeps exactly one entry for that start, the retained feasibility window is
the one with the smaller end `e1`, and the presented end is
`start + duration` — not `e1`. -/
theorem tightest_fit_amended (tz : Tz) (nowUtc durMin maxSlots : Int) (r1 r2 : RawInSlot)
    (s e1 e2 : Int) (rid1 rid2 : String)
    (h1 : processSlot tz (nowUtc + 30 * 60) (durMin * 60) r1 = some (s, e1, rid1))
    (h2 : processSlot tz (nowUtc + 30 * 60) (durMin * 60) r2 = some (s, e2, rid2))
    (hlt : e1 < e2) (hfit : s + durMin * 60 ≤ e1) (hne : iso e1 ≠ iso e2) :
    (minEndByStart (durMin * 60) (exactWindows tz (nowUtc + 30 * 60) (durMin * 60) [r1, r2]) =
       [(iso s, (s, e1, rid1))] ∧
     postProcess tz nowUtc durMin maxSlots [r1, r2] = [mkOutSlot 1 rid1 s (s + durMin * 60)]) ∧
    (minEndByStart (durMin * 60) (exactWindows tz (nowUtc + 30 * 60) (durMin * 60) [r2, r1]) =
       [(iso s, (s, e1, rid1))] ∧
     postProcess tz nowUtc durMin maxSlots [r2, r1] = [mkOutSlot 1 rid1 s (s + durMin * 60)]) := by
  have hd1 : ¬ (e1 < s + durMin * 60) := by omega
  have hd2 : ¬ (e2 < s + durMin * 60) := by omega
  have h21 : ¬ (e2 < e1) := by omega
  have hk : (iso s ++ "|" ++ iso e1) ≠ (iso s ++ "|" ++ iso e2) := fun hcontra =>
    hne (str_append_left_cancel (iso s ++ "|") _ _ (by
      simpa [String.append_assoc] using hcontra))
  have hk2 : (iso s ++ "|" ++ iso e2) ≠ (iso s ++ "|" ++ iso e1) := Ne.symm hk
  have hew : exactWindows tz (nowUtc + 30 * 60) (durMin * 60) [r1, r2] =
      [(iso s ++ "|" ++ iso e1, (s, e1, rid1)), (iso s ++ "|" ++ iso e2, (s, e2, rid2))] := by
    unfold exactWindows
    simp only [List.foldl_cons, List.foldl_nil, exactStep, h1, h2]
    simp [dictInsert, hk]
  have hew2 : exactWindows tz (nowUtc + 30 * 60) (durMin * 60) [r2, r1] =
      [(iso s ++ "|" ++ iso e2, (s, e2, rid2)), (iso s ++ "|" ++ iso e1, (s, e1, rid1))] := by
    unfold exactWindows
    simp only [List.foldl_cons, List.foldl_nil, exactStep, h1, h2]
    simp [dictInsert, hk2]
  have hme : minEndByStart (durMin * 60)
      (exactWindows tz (nowUtc + 30 * 60) (durMin * 60) [r1, r2]) =
      [(iso s, (s, e1, rid1))] := by
    rw [hew]
    unfold minEndByStart
    simp only [List.foldl_cons, List.foldl_nil]
    have hstep1 : minEndStep (durMin * 60) []
        (iso s ++ "|" ++ iso e1, (s, e1, rid1)) = [(iso s, (s, e1, rid1))] := by
      unfold minEndStep
      dsimp only
      rw [if_neg hd1]
      rfl
    rw [hstep1]
    unfold minEndStep
    dsimp only
    rw [if_neg hd2]
    have hlook : dictLookup [(iso s, (s, e1, rid1))] (iso s) = some (s, e1, rid1) := by
      simp [dictLookup]
    rw [hlook]
    try dsimp only
    rw [if_neg h21]
  have hme2 : minEndByStart (durMin * 60)
      (exactWindows tz (nowUtc + 30 * 60) (durMin * 60) [r2, r1]) =
      [(iso s, (s, e1, rid1))] := by
    rw [hew2]
    unfold minEndByStart
    simp only [List.foldl_cons, List.foldl_nil]
    have hstep2a : minEndStep (durMin * 60) []
        (iso s ++ "|" ++ iso e2, (s, e2, rid2)) = [(iso s, (s, e2, rid2))] := by
      unfold minEndStep
      dsimp only
      rw [if_neg hd2]
      rfl
    rw [hstep2a]
    unfold minEndStep
    dsimp only
    rw [if_neg hd1]
    have hlook2 : dictLookup [(iso s, (s, e2, rid2))] (iso s) = some (s, e2, rid2) := by
      simp [dictLookup]
    rw [hlook2]
    try dsimp only
    rw [if_pos hlt]
    simp [dictInsert]
  constructor
  · refine ⟨hme, ?_⟩
    unfold postProcess
    rw [hme, stableSort_singleton]
    simp only [buildSlots]
    rw [if_neg hd1]
    split
    · rfl
    · simp [buildSlots]
  · refine ⟨hme2, ?_⟩
    unfold postProcess
    rw [hme2, stableSort_singleton]
    simp only [buildSlots]
    rw [if_neg hd1]
    split
    · rfl
    · simp [buildSlots]

def c2Raw1 : RawInSlot :=
  { slot_idRaw := some "r1|2026-01-15T09:00:00Z|2026-01-15T11:00:00Z",
    startRaw := some "2026-01-15T09:00:00Z", endRaw := some "2026-01-15T11:00:00Z" }

def c2Raw2 : RawInSlot :=
  { slot_idRaw := some "r2|2026-01-15T09:00:00Z|2026-01-15T13:00:00Z",
    startRaw := some "2026-01-15T09:00:00Z", endRaw := some "2026-01-15T13:00:00Z" }

/-- Counterexample to C2 as stated: two raw slots share the rounded start
`2026-01-15T09:00:00Z` with different capped ends (11:00Z and 13:00Z), both
satisfy the requested 60-minute duration, yet the single output entry for
that start ends at `10:00:00Z` (= start + duration), not at the smaller
candidate end `11:00:00Z`. -/
theorem tightest_fit_counterexample :
    processSlot londonTz (1768464000 + 30 * 60) (60 * 60) c2Raw1 =
      some (1768467600, 1768474800, "r1") ∧
    processSlot londonTz (1768464000 + 30 * 60) (60 * 60) c2Raw2 =
      some (1768467600, 1768482000, "r2") ∧
    1768467600 + 60 * 60 ≤ 1768474800 ∧ 1768467600 + 60 * 60 ≤ 1768482000 ∧
    iso 1768474800 = "2026-01-15T11:00:00Z" ∧
    (postProcess londonTz 1768464000 60 8 [c2Raw1, c2Raw2]).map (fun s => s.endS) =
      ["2026-01-15T10:00:00Z"] ∧
    ("2026-01-15T10:00:00Z" : String) ≠ "2026-01-15T11:00:00Z" := by
  decide

/-- Witness for the amended C2 at the same concrete input, in both vendor
orders: tighter window first and looser window first. -/
theorem tightest_fit_amended_witness :
    postProcess londonTz 1768464000 60 8 [c2Raw1, c2Raw2] =
      [mkOutSlot 1 "r1" 1768467600 (1768467600 + 60 * 60)] ∧
    postProcess londonTz 1768464000 60 8 [c2Raw2, c2Raw1] =
      [mkOutSlot 1 "r1" 1768467600 (1768467600 + 60 * 60)] :=
  ⟨(tightest_fit_amended londonTz 1768464000 60 8 c2Raw1 c2Raw2 1768467600 1768474800
      1768482000 "r1" "r2" (by decide) (by decide) (by decide) (by decide) (by decide)).1.2,
   (tightest_fit_amended londonTz 1768464000 60 8 c2Raw1 c2Raw2 1768467600 1768474800
      1768482000 "r1" "r2" (by decide) (by decide) (by decide) (by decide) (by decide)).2.2⟩

/-! ## Claim C3: lead-time clamp and half-hour rounding -/

theorem roundWall_mod (w : Int) : roundWallHalfHour w % 1800 = 0 := by
  unfold roundWallHalfHour
  split
  · rename_i h
    omega
  · split <;> omega

theorem roundWall_lb (w : Int) : w - 59 ≤ roundWallHalfHour w := by
  unfold roundWallHalfHour
  split
  · omega
  · split <;> omega

theorem roundWall_ub (w : Int) : roundWallHalfHour w < w + 1800 := by
  unfold roundWallHalfHour
  split
  · omega
  · split <;> omega

theorem roundWall_keep (w : Int) (h : w % 1800 = 0) : roundWallHalfHour w = w := by
  unfold roundWallHalfHour
  split
  · omega
  · split <;> omega

theorem roundWall_ge_of_whole_minute (w : Int) (h : w % 60 = 0) : w ≤ roundWallHalfHour w := by
  unfold roundWallHalfHour
  split
  · omega
  · split <;> omega

theorem londonOffAt_cases (t : Int) : londonOffAt t = 0 ∨ londonOffAt t = 3600 := by
  unfold londonOffAt
  split
  · right; rfl
  · left; rfl

theorem londonOffFromWall_cases (w : Int) (f : Bool) :
    londonOffFromWall w f = 0 ∨ londonOffFromWall w f = 3600 := by
  unfold londonOffFromWall
  split
  · left; rfl
  · split
    · cases f
      · left; rfl
      · right; rfl
    · split
      · right; rfl
      · split
        · cases f
          · right; rfl
          · left; rfl
        · left; rfl

theorem ceil_fixed_eq (off t : Int) :
    ceil_to_half_hour_local (fixedTz off) t = roundWallHalfHour (t + off) - off := rfl

/-- Civil-time rounding semantics of `_ceil_to_half_hour_local` over any
fixed UTC offset: the result is on a local half-hour boundary, moves the
instant back at most 59 seconds (the `replace(second=0)` truncation inside a
`:00`/`:30` minute) and forward less than 30 minutes, is the identity on
boundaries, and never moves a whole-minute instant backwards. -/
theorem ceil_fixed_props (off t : Int) :
    (ceil_to_half_hour_local (fixedTz off) t + off) % 1800 = 0 ∧
    t - 59 ≤ ceil_to_half_hour_local (fixedTz off) t ∧
    ceil_to_half_hour_local (fixedTz off) t < t + 1800 ∧
    ((t + off) % 1800 = 0 → ceil_to_half_hour_local (fixedTz off) t = t) ∧
    ((t + off) % 60 = 0 → t ≤ ceil_to_half_hour_local (fixedTz off) t) := by
  rw [ceil_fixed_eq]
  have h1 := roundWall_mod (t + off)
  have h2 := roundWall_lb (t + off)
  have h3 := roundWall_ub (t + off)
  refine ⟨by omega, by omega, by omega, ?_, ?_⟩
  · intro h
    have := roundWall_keep (t + off) h
    omega
  · intro h
    have := roundWall_ge_of_whole_minute (t + off) h
    omega

/-- London rounding always lands on a local half-hour boundary, across DST
transitions as well (offsets are whole hours, so fold disagreements cancel
modulo 30 minutes). -/
theorem ceil_london_aligned (t : Int) :
    (ceil_to_half_hour_local londonTz t +
      londonOffAt (ceil_to_half_hour_local londonTz t)) % 1800 = 0 := by
  have hmod := roundWall_mod ((londonTz.toWall t).1)
  have hW := londonOffFromWall_cases (roundWallHalfHour ((londonTz.toWall t).1)) (londonTz.toWall t).2
  have hceil : ceil_to_half_hour_local londonTz t =
      roundWallHalfHour ((londonTz.toWall t).1) -
        londonOffFromWall (roundWallHalfHour ((londonTz.toWall t).1)) (londonTz.toWall t).2 := rfl
  have hA := londonOffAt_cases (ceil_to_half_hour_local londonTz t)
  omega

theorem processSlot_start_shape (tz : Tz) (lead d : Int) (raw : RawInSlot)
    (w : Int × Int × String) (h : processSlot tz lead d raw = some w) :
    ∃ ss ps, raw.startRaw = some ss ∧ parse_iso_datetime ss = some ps ∧
      w.1 = adjustStartToOpen tz (ceil_to_half_hour_local tz (if ps < lead then lead else ps)) := by
  unfold processSlot at h
  cases hss : raw.startRaw with
  | none => rw [hss] at h; simp at h
  | some ss =>
    cases hes : raw.endRaw with
    | none => rw [hss, hes] at h; simp at h
    | some es =>
      rw [hss, hes] at h
      dsimp only at h
      cases hps : parse_iso_datetime ss with
      | none => rw [hps] at h; simp at h
      | some ps =>
        cases hpe : parse_iso_datetime es with
        | none => rw [hps, hpe] at h; simp at h
        | some pe =>
          rw [hps, hpe] at h
          dsimp only at h
          refine ⟨ss, ps, rfl, hps, ?_⟩
          by_cases hc : ps < lead
          · rw [if_pos hc] at h ⊢
            split at h
            · simp at h
            · split at h
              · simp at h
              · cases Option.some.inj h
                rfl
          · rw [if_neg hc] at h ⊢
            split at h
            · simp at h
            · split at h
              · simp at h
              · cases Option.some.inj h
                rfl

theorem adjust_fixed_eq (off s : Int) :
    adjustStartToOpen (fixedTz off) s =
      if s < s + off - (s + off) % 86400 + 8 * 3600 - off then
        ceil_to_half_hour_local (fixedTz off) (s + off - (s + off) % 86400 + 8 * 3600 - off)
      else s := by
  unfold adjustStartToOpen
  dsimp only [fixedTz]
  refine if_congr (by omega) (congrArg _ (by omega)) rfl

/-- For a fixed offset, the business-hours adjustment never moves a start
backwards: 08:00 local is a whole minute, so re-applying the ceiling cannot
undershoot it. -/
theorem fixed_adjust_ge (off s : Int) : s ≤ adjustStartToOpen (fixedTz off) s := by
  rw [adjust_fixed_eq]
  split
  · rename_i hlt
    have hmod : ((s + off - (s + off) % 86400 + 8 * 3600 - off) + off) % 60 = 0 := by omega
    have hge := (ceil_fixed_props off (s + off - (s + off) % 86400 + 8 * 3600 - off)).2.2.2.2 hmod
    omega
  · omega

/-- For a fixed offset, the adjusted start of a rounded instant stays on a
local half-hour boundary. -/
theorem fixed_adjust_aligned (off x : Int) :
    (adjustStartToOpen (fixedTz off) (ceil_to_half_hour_local (fixedTz off) x) + off) % 1800 = 0 := by
  rw [adjust_fixed_eq]
  split
  · exact (ceil_fixed_props off _).1
  · exact (ceil_fixed_props off x).1

/-- Under London time, the adjusted start of a rounded instant stays on a
local half-hour boundary. -/
theorem london_adjust_aligned (x : Int) :
    (adjustStartToOpen londonTz (ceil_to_half_hour_local londonTz x) +
      londonOffAt (adjustStartToOpen londonTz (ceil_to_half_hour_local londonTz x))) % 1800 = 0 := by
  unfold adjustStartToOpen
  split
  · exact ceil_london_aligned _
  · exact ceil_london_aligned x

/-- C3, amended. `_ceil_to_half_hour_local` rounds at minute granularity:
it drops seconds inside a `:00`/`:30` minute (moving the instant up to 59
seconds backwards) and otherwise rounds up to the next local half-hour mark
with correct rollover; each processed slot start is first clamped to
`max(raw_start, now + 30min)` and only then rounded (and possibly advanced
to local opening); consequently, over a fixed-offset local time every output
start is half-hour aligned and at least `now + 30min − 59s`, and under
Europe/London every output start is half-hour aligned in local time. A raw
slot starting before `now + 30min` can keep its original start exactly in
the truncation case (see the counterexample). -/
theorem lead_time_rounding_amended :
    (∀ off t : Int,
      (ceil_to_half_hour_local (fixedTz off) t + off) % 1800 = 0 ∧
      t - 59 ≤ ceil_to_half_hour_local (fixedTz off) t ∧
      ceil_to_half_hour_local (fixedTz off) t < t + 1800 ∧
      ((t + off) % 1800 = 0 → ceil_to_half_hour_local (fixedTz off) t = t) ∧
      ((t + off) % 60 = 0 → t ≤ ceil_to_half_hour_local (fixedTz off) t)) ∧
    (∀ t : Int,
      (ceil_to_half_hour_local londonTz t +
        londonOffAt (ceil_to_half_hour_local londonTz t)) % 1800 = 0) ∧
    (∀ (tz : Tz) (lead d : Int) (raw : RawInSlot) (w : Int × Int × String),
      processSlot tz lead d raw = some w →
      ∃ ss ps, raw.startRaw = some ss ∧ parse_iso_datetime ss = some ps ∧
        w.1 = adjustStartToOpen tz (ceil_to_half_hour_local tz (if ps < lead then lead else ps))) ∧
    (∀ (off nowUtc durMin maxSlots : Int) (raws : List RawInSlot),
      ∀ s ∈ postProcess (fixedTz off) nowUtc durMin maxSlots raws,
        nowUtc + 30 * 60 - 59 ≤ s.startT ∧ (s.startT + off) % 1800 = 0) ∧
    (∀ (nowUtc durMin maxSlots : Int) (raws : List RawInSlot),
      ∀ s ∈ postProcess londonTz nowUtc durMin maxSlots raws,
        (s.startT + londonOffAt s.startT) % 1800 = 0) := by
  refine ⟨ceil_fixed_props, ceil_london_aligned, processSlot_start_shape, ?_, ?_⟩
  · intro off nowUtc durMin maxSlots raws s hs
    rcases mem_postProcess (fixedTz off) nowUtc durMin maxSlots raws s hs with
      ⟨raw, _, w, hp, _, hshape⟩
    rcases processSlot_start_shape _ _ _ _ _ hp with ⟨ss, ps, _, _, hw1⟩
    have hstart : s.startT = w.1 := by rw [hshape]; rfl
    constructor
    · rw [hstart, hw1]
      have hmax : nowUtc + 30 * 60 ≤ (if ps < nowUtc + 30 * 60 then nowUtc + 30 * 60 else ps) := by
        split <;> omega
      have hceil := (ceil_fixed_props off (if ps < nowUtc + 30 * 60 then nowUtc + 30 * 60 else ps)).2.1
      have hadj := fixed_adjust_ge off
        (ceil_to_half_hour_local (fixedTz off) (if ps < nowUtc + 30 * 60 then nowUtc + 30 * 60 else ps))
      omega
    · rw [hstart, hw1]
      exact fixed_adjust_aligned off _
  · intro nowUtc durMin maxSlots raws s hs
    rcases mem_postProcess londonTz nowUtc durMin maxSlots raws s hs with
      ⟨raw, _, w, hp, _, hshape⟩
    rcases processSlot_start_shape _ _ _ _ _ hp with ⟨ss, ps, _, _, hw1⟩
    have hstart : s.startT = w.1 := by rw [hshape]; rfl
    rw [hstart, hw1]
    exact london_adjust_aligned _

def c3Raw : RawInSlot :=
  { slot_idRaw := some "r1|2026-01-15T10:30:00Z|2026-01-15T15:00:00Z",
    startRaw := some "2026-01-15T10:30:00Z", endRaw := some "2026-01-15T15:00:00Z" }

/-- Counterexample to C3 as stated: with `now = 2026-01-15T10:00:45Z` the
lead time is `10:30:45Z`; the raw slot starting `10:30:00Z` is clamped
forward to `10:30:45Z`, but the rounding truncates the 45 seconds away
(minute 30), so the slot is offered with exactly its original start —
a start strictly before `now + 30min` — contradicting both "rounded ... up"
and "a raw slot starting before now + 30min is never offered with its
original start". -/
theorem lead_time_rounding_counterexample :
    iso 1768471245 = "2026-01-15T10:00:45Z" ∧
    parse_iso_datetime "2026-01-15T10:30:00Z" = some 1768473000 ∧
    (1768473000 : Int) < 1768471245 + 30 * 60 ∧
    (postProcess londonTz 1768471245 60 8 [c3Raw]).map (fun s => s.startS) =
      ["2026-01-15T10:30:00Z"] := by
  decide

def c3OutSlot : OutSlot := mkOutSlot 1 "r1" 1768473000 1768476600

/-- Witness for the amended C3 at a concrete input: with a fixed zero
offset (London in winter), the single output slot of the counterexample
input starts on a half-hour boundary no earlier than `now + 30min − 59s`. -/
theorem lead_time_rounding_amended_witness :
    (1768471245 : Int) + 30 * 60 - 59 ≤ c3OutSlot.startT ∧ (c3OutSlot.startT + 0) % 1800 = 0 :=
  lead_time_rounding_amended.2.2.2.1 0 1768471245 60 8 [c3Raw] c3OutSlot (by decide)

/-! ## Claim C8: slot_id round-trip -/

theorem mem_pyStripList (l : List Char) : ∀ c ∈ pyStripList l, c ∈ l := by
  intro c hc
  unfold pyStripList at hc
  rw [List.mem_reverse] at hc
  have h1 := List.dropWhile_sublist (l := (l.dropWhile pyWhitespace).reverse) (p := pyWhitespace)
  have h2 := h1.mem hc
  rw [List.mem_reverse] at h2
  exact (List.dropWhile_sublist (l := l) (p := pyWhitespace)).mem h2

theorem head_splitCharListMax2_no_sep (c : Char) (l : List Char) :
    ∀ h0, (splitCharListMax2 c l).head? = some h0 → c ∉ h0 := by
  induction l with
  | nil =>
    intro h0 h
    simp only [splitCharListMax2, List.head?_cons] at h
    cases h
    simp
  | cons x xs ih =>
    intro h0 h
    simp only [splitCharListMax2] at h
    by_cases hx : x = c
    · rw [if_pos hx] at h
      simp only [List.head?_cons] at h
      cases h
      simp
    · rw [if_neg hx] at h
      cases hrec : splitCharListMax2 c xs with
      | nil =>
        rw [hrec] at h
        simp only [List.head?_cons] at h
        cases h
        exact fun hm => hx (List.mem_singleton.mp hm).symm
      | cons a t =>
        rw [hrec] at h
        simp only [List.head?_cons] at h
        cases h
        intro hm
        rcases List.mem_cons.mp hm with hh | hh
        · exact hx hh.symm
        · exact ih a (by rw [hrec]; rfl) hh

theorem pyStrip_no_pipe (s : String) (h : '|' ∉ s.data) : '|' ∉ (pyStrip s).data :=
  fun hmem => h (mem_pyStripList s.data '|' hmem)

theorem head_pySplitMax2_no_pipe (sid p0 : String)
    (hh : (pySplitMax2 '|' sid).head? = some p0) : '|' ∉ p0.data := by
  unfold pySplitMax2 at hh
  cases hsp : splitCharListMax2 '|' sid.data with
  | nil => rw [hsp] at hh; simp at hh
  | cons a t =>
    rw [hsp] at hh
    simp only [List.map_cons, List.head?_cons] at hh
    cases hh
    exact head_splitCharListMax2_no_sep '|' sid.data a (by rw [hsp]; rfl)

theorem slotResourceId_no_pipe (x : Option String) : '|' ∉ (slotResourceId x).data := by
  unfold slotResourceId
  cases x with
  | none => decide
  | some sid =>
    dsimp only
    split
    · cases hh : (pySplitMax2 '|' sid).head? with
      | none => decide
      | some p0 =>
        dsimp only
        split
        · decide
        · exact pyStrip_no_pipe p0 (head_pySplitMax2_no_pipe sid p0 hh)
    · decide

theorem processSlot_resource_id (tz : Tz) (lead d : Int) (raw : RawInSlot)
    (w : Int × Int × String) (h : processSlot tz lead d raw = some w) :
    w.2.2 = slotResourceId raw.slot_idRaw := by
  unfold processSlot at h
  cases hss : raw.startRaw with
  | none => rw [hss] at h; simp at h
  | some ss =>
    cases hes : raw.endRaw with
    | none => rw [hss, hes] at h; simp at h
    | some es =>
      rw [hss, hes] at h
      dsimp only at h
      cases hps : parse_iso_datetime ss with
      | none => rw [hps] at h; simp at h
      | some ps =>
        cases hpe : parse_iso_datetime es with
        | none => rw [hps, hpe] at h; simp at h
        | some pe =>
          rw [hps, hpe] at h
          dsimp only at h
          by_cases hc : ps < lead
          · rw [if_pos hc] at h
            split at h
            · simp at h
            · split at h
              · simp at h
              · cases Option.some.inj h
                rfl
          · rw [if_neg hc] at h
            split at h
            · simp at h
            · split at h
              · simp at h
              · cases Option.some.inj h
                rfl

/-- The post-processor part of C8, unconditionally: splitting a produced
`slot_id` on `|` yields exactly three parts and the last two are the slot's
`start` and `end` strings. -/
theorem postProcess_slot_id_roundtrip (tz : Tz) (nowUtc durMin maxSlots : Int)
    (raws : List RawInSlot) :
    ∀ s ∈ postProcess tz nowUtc durMin maxSlots raws,
      ∃ r0 : String, pySplit '|' s.slot_id = [r0, s.startS, s.endS] := by
  intro s hs
  rcases mem_postProcess tz nowUtc durMin maxSlots raws s hs with ⟨raw, _, w, hp, _, hshape⟩
  have hrid := processSlot_resource_id tz _ _ raw w hp
  refine ⟨w.2.2, ?_⟩
  rw [hshape]
  show pySplit '|' (w.2.2 ++ "|" ++ iso w.1 ++ "|" ++ iso (w.1 + durMin * 60)) = _
  rw [pySplit_three w.2.2 (iso w.1) (iso (w.1 + durMin * 60))
    (hrid ▸ slotResourceId_no_pipe raw.slot_idRaw)
    (pipe_not_mem_iso_data w.1) (pipe_not_mem_iso_data (w.1 + durMin * 60))]
  rfl

theorem sortSlotsGuarded_subset (l : List NSlot) : ∀ s ∈ sortSlotsGuarded l, s ∈ l := by
  intro s hs
  unfold sortSlotsGuarded at hs
  split at hs
  · exact (stableSort_perm startKeyLe l).mem_iff.mp hs
  · exact hs

theorem mem_normalize_time_slots (maxTS : Int) (onlyRes : Option String) (raw : FsaRaw) :
    ∀ s ∈ normalize_time_slots maxTS onlyRes raw,
      ∃ items, raw.timeSlots = some items ∧
        ∃ it ∈ items, normalizeOneSlot onlyRes it = some s := by
  intro s hs
  unfold normalize_time_slots at hs
  cases hts : raw.timeSlots with
  | none => rw [hts] at hs; simp at hs
  | some items =>
    rw [hts] at hs
    dsimp only at hs
    split at hs
    · simp at hs
    · refine ⟨items, rfl, ?_⟩
      have hs2 : s ∈ sortSlotsGuarded (items.filterMap (normalizeOneSlot onlyRes)) := by
        split at hs
        · exact List.take_subset _ _ hs
        · exact hs
      have hs3 := sortSlotsGuarded_subset _ s hs2
      rcases List.mem_filterMap.mp hs3 with ⟨it, hit, hone⟩
      exact ⟨it, hit, hone⟩

theorem normalizeOneSlot_shape (onlyRes : Option String) (it : TsItem) (s : NSlot)
    (h : normalizeOneSlot onlyRes it = some s) :
    ∃ st en, it.startRaw = some st ∧ it.endRaw = some en ∧
      s.startS = st ∧ s.endS = en ∧
      s.slot_id =
        (match it.resourceId with | some r => r | none => "unknown") ++ "|" ++ st ++ "|" ++ en := by
  unfold normalizeOneSlot at h
  split at h
  · simp at h
  · dsimp only at h
    split at h
    · cases hsr : it.startRaw with
      | none => rw [hsr] at h; simp at h
      | some st =>
        cases her : it.endRaw with
        | none => rw [hsr, her] at h; simp at h
        | some en =>
          rw [hsr, her] at h
          dsimp only at h
          by_cases hst : st = ""
          · rw [if_pos hst] at h; simp at h
          · rw [if_neg hst] at h
            by_cases hen : en = ""
            · rw [if_pos hen] at h; simp at h
            · rw [if_neg hen] at h
              dsimp only at h
              cases Option.some.inj h
              exact ⟨st, en, rfl, rfl, rfl, rfl, rfl⟩
    · simp at h

/-- The normalizer part of C8, for vendor data whose strings are free of the
`|` delimiter (true of all timestamps and GUIDs the vendor emits). -/
theorem normalize_slot_id_roundtrip (maxTS : Int) (onlyRes : Option String) (raw : FsaRaw)
    (hclean : ∀ it ∈ raw.timeSlots.getD [],
      ('|' ∉ (match it.resourceId with | some r => r | none => "unknown").data) ∧
      (∀ v, it.startRaw = some v → '|' ∉ v.data) ∧
      (∀ v, it.endRaw = some v → '|' ∉ v.data)) :
    ∀ s ∈ normalize_time_slots maxTS onlyRes raw,
      ∃ r0 : String, pySplit '|' s.slot_id = [r0, s.startS, s.endS] := by
  intro s hs
  rcases mem_normalize_time_slots maxTS onlyRes raw s hs with ⟨items, hitems, it, hit, hone⟩
  rcases normalizeOneSlot_shape onlyRes it s hone with ⟨st, en, hsr, her, hstart, hend, hsid⟩
  have hcl := hclean it (by rw [hitems]; exact hit)
  refine ⟨(match it.resourceId with | some r => r | none => "unknown"), ?_⟩
  rw [hsid, hstart, hend]
  exact pySplit_three _ st en hcl.1 (hcl.2.1 st hsr) (hcl.2.2 en her)

def c8BadItem : TsItem :=
  { startRaw := some "2026-01-15T09:00:00Z|x", endRaw := some "2026-01-15T11:00:00Z",
    resourceId := none }

/-- Counterexample to C8 as stated: a vendor `Start` string containing the
`|` delimiter flows verbatim into the composite `slot_id`
(`unknown|2026-01-15T09:00:00Z|x|2026-01-15T11:00:00Z`), whose split yields
four parts, so parts 2 and 3 do not reproduce `(start, end)`. -/
theorem slot_id_roundtrip_counterexample :
    (normalize_time_slots 8 none { timeSlots := some [c8BadItem] }).map
      (fun s => pySplit '|' s.slot_id) =
      [["unknown", "2026-01-15T09:00:00Z", "x", "2026-01-15T11:00:00Z"]] ∧
    ([("unknown" : String), "2026-01-15T09:00:00Z", "x", "2026-01-15T11:00:00Z"].length ≠ 3) ∧
    (normalize_time_slots 8 none { timeSlots := some [c8BadItem] }).map
      (fun s => s.startS) = ["2026-01-15T09:00:00Z|x"] := by
  decide

/-- C8, amended: the round-trip holds unconditionally for the slots built by
the customer post-processor (its fields are re-serialized ISO strings and a
delimiter-free resource id), and holds for the normalizer whenever the
vendor-supplied resource/start/end strings do not contain the `|`
delimiter. -/
theorem slot_id_roundtrip_amended :
    (∀ (maxTS : Int) (onlyRes : Option String) (raw : FsaRaw),
      (∀ it ∈ raw.timeSlots.getD [],
        ('|' ∉ (match it.resourceId with | some r => r | none => "unknown").data) ∧
        (∀ v, it.startRaw = some v → '|' ∉ v.data) ∧
        (∀ v, it.endRaw = some v → '|' ∉ v.data)) →
      ∀ s ∈ normalize_time_slots maxTS onlyRes raw,
        ∃ r0 : String, pySplit '|' s.slot_id = [r0, s.startS, s.endS]) ∧
    (∀ (tz : Tz) (nowUtc durMin maxSlots : Int) (raws : List RawInSlot),
      ∀ s ∈ postProcess tz nowUtc durMin maxSlots raws,
        ∃ r0 : String, pySplit '|' s.slot_id = [r0, s.startS, s.endS]) :=
  ⟨normalize_slot_id_roundtrip, postProcess_slot_id_roundtrip⟩

def c8GoodItem : TsItem :=
  { startRaw := some "2026-01-15T09:00:00Z", endRaw := some "2026-01-15T11:00:00Z",
    resourceId := some "r1" }

def c8GoodSlot : NSlot :=
  { slot_id := "r1|2026-01-15T09:00:00Z|2026-01-15T11:00:00Z",
    startS := "2026-01-15T09:00:00Z", endS := "2026-01-15T11:00:00Z",
    resource_id := some "r1", resource_name := none }

/-- Witness for the amended C8 at concrete inputs. -/
theorem slot_id_roundtrip_amended_witness :
    (∃ r0 : String, pySplit '|' c8GoodSlot.slot_id = [r0, c8GoodSlot.startS, c8GoodSlot.endS]) ∧
    (∃ r0 : String, pySplit '|' c3OutSlot.slot_id = [r0, c3OutSlot.startS, c3OutSlot.endS]) :=
  ⟨slot_id_roundtrip_amended.1 8 none { timeSlots := some [c8GoodItem] } (by decide)
      c8GoodSlot (by decide),
    slot_id_roundtrip_amended.2 (fixedTz 0) 1768471245 60 8 [c3Raw] c3OutSlot (by decide)⟩

/-! ## Claim C9: normalizer ordering and truncation -/

theorem startKeyLe_trans (a b c : NSlot) (h1 : startKeyLe a b = true)
    (h2 : startKeyLe b c = true) : startKeyLe a c = true := by
  unfold startKeyLe at h1 h2 ⊢
  cases ha : parse_iso_datetime a.startS <;> cases hb : parse_iso_datetime b.startS <;>
    cases hc : parse_iso_datetime c.startS <;>
      simp_all <;> omega

theorem startKeyLe_total (a b : NSlot) : startKeyLe a b = true ∨ startKeyLe b a = true := by
  unfold startKeyLe
  cases ha : parse_iso_datetime a.startS <;> cases hb : parse_iso_datetime b.startS <;> simp <;> omega

/-- C9, amended: the normalized slot list is sorted ascending by parsed
start whenever every built slot's start parses as an ISO datetime (an
unparseable start raises inside the sort key and the guarded sort leaves the
list order untouched), and whenever the caller's `max_time_slots` is
positive the list is truncated to at most that many entries
(a non-positive maximum means uncapped). -/
theorem normalize_sorted_amended :
    (∀ (maxTS : Int) (onlyRes : Option String) (raw : FsaRaw),
      ((raw.timeSlots.getD []).filterMap (normalizeOneSlot onlyRes)).all
        (fun s => (parse_iso_datetime s.startS).isSome) = true →
      (normalize_time_slots maxTS onlyRes raw).Pairwise (fun a b => startKeyLe a b = true)) ∧
    (∀ (maxTS : Int) (onlyRes : Option String) (raw : FsaRaw), maxTS > 0 →
      (normalize_time_slots maxTS onlyRes raw).length ≤ maxTS.toNat) := by
  constructor
  · intro maxTS onlyRes raw hall
    unfold normalize_time_slots
    cases hts : raw.timeSlots with
    | none => simp
    | some items =>
      dsimp only
      split
      · simp
      · rw [hts] at hall
        simp only [Option.getD] at hall
        have hsg : sortSlotsGuarded (items.filterMap (normalizeOneSlot onlyRes)) =
            stableSort startKeyLe (items.filterMap (normalizeOneSlot onlyRes)) := by
          unfold sortSlotsGuarded
          rw [if_pos hall]
        rw [hsg]
        have hsorted := stableSort_pairwise startKeyLe startKeyLe_trans startKeyLe_total
          (items.filterMap (normalizeOneSlot onlyRes))
        split
        · exact hsorted.sublist (List.take_sublist _ _)
        · exact hsorted
  · intro maxTS onlyRes raw hpos
    unfold normalize_time_slots
    cases raw.timeSlots with
    | none => simp
    | some items =>
      dsimp only
      split
      · simp
      all_goals first
        | (rw [List.length_take]; exact Nat.min_le_left _ _)
        | omega

def c9Items : List TsItem :=
  [{ startRaw := some "bad", endRaw := some "x", resourceId := some "r0" },
   { startRaw := some "2026-01-02T00:00:00Z", endRaw := some "2026-01-02T01:00:00Z",
     resourceId := some "r1" },
   { startRaw := some "2026-01-01T00:00:00Z", endRaw := some "2026-01-01T01:00:00Z",
     resourceId := some "r2" }]

/-- Counterexample to C9 as stated: one unparseable `Start` string makes the
guarded sort a no-op (`except: pass` around `slots.sort`), so the returned
list keeps vendor order — the second slot's parsed start is strictly later
than the third's, i.e. the list is not ascending by start time even among
its parseable entries. -/
theorem normalize_sorted_counterexample :
    (normalize_time_slots 8 none { timeSlots := some c9Items }).map (fun s => s.startS) =
      ["bad", "2026-01-02T00:00:00Z", "2026-01-01T00:00:00Z"] ∧
    parse_iso_datetime "bad" = none ∧
    parse_iso_datetime "2026-01-02T00:00:00Z" = some 1767312000 ∧
    parse_iso_datetime "2026-01-01T00:00:00Z" = some 1767225600 ∧
    ¬ ((1767312000 : Int) ≤ 1767225600) := by
  decide

def c9CleanRaw : FsaRaw :=
  { timeSlots := some
      [{ startRaw := some "2026-01-02T00:00:00Z", endRaw := some "2026-01-02T01:00:00Z",
         resourceId := some "r1" },
       { startRaw := some "2026-01-01T00:00:00Z", endRaw := some "2026-01-01T01:00:00Z",
         resourceId := some "r2" }] }

/-- Witness for the amended C9 at a concrete input: with all starts
parseable the output is sorted, and it respects the cap. -/
theorem normalize_sorted_amended_witness :
    (normalize_time_slots 8 none c9CleanRaw).Pairwise (fun a b => startKeyLe a b = true) ∧
    (normalize_time_slots 8 none c9CleanRaw).length ≤ (8 : Int).toNat :=
  ⟨normalize_sorted_amended.1 8 none c9CleanRaw (by decide),
   normalize_sorted_amended.2 8 none c9CleanRaw (by decide)⟩

/-! ## Claim C5: the generic-search fallback label -/

/-- C5, amended: when the service layer substitutes generic-search results
after an empty requirement-based search, the returned `action` is
`"fallback:"` followed by the *generic* search's action name (the code
formats `generic.get('action')`, not the originally attempted
requirement-based action), and `details` carries the requirement-based and
generic diagnostic sub-reports. -/
theorem fallback_action_amended (env : DvEnv) (demoRes : Option String) (nowUtc : Int)
    (a : CsArgs) (hreq : a.requirement_id.getD "" ≠ "")
    (hempty : (search_field_service_availability env (csPrimaryArgs false demoRes a)).slots = [])
    (hgen : (search_field_service_availability env (csGenericArgs demoRes a)).slots ≠ []) :
    (customerSearchAvailability env false demoRes nowUtc a).action =
      some ("fallback:" ++
        pyShowOptStr (search_field_service_availability env (csGenericArgs demoRes a)).action) ∧
    (customerSearchAvailability env false demoRes nowUtc a).details =
      JVal.obj
        [("requirement_based",
          subReport (search_field_service_availability env (csPrimaryArgs false demoRes a))),
         ("generic", subReport (search_field_service_availability env (csGenericArgs demoRes a)))] := by
  have hraw : csRawResult env false demoRes a =
      fallbackRaw (search_field_service_availability env (csPrimaryArgs false demoRes a))
        (search_field_service_availability env (csGenericArgs demoRes a)) := by
    unfold csRawResult
    rw [if_pos ⟨rfl, hreq, by rw [hempty]; rfl⟩,
      if_neg (by simpa [List.isEmpty_iff] using hgen)]
  constructor
  · show (csRawResult env false demoRes a).action = _
    rw [hraw]
    rfl
  · show (csRawResult env false demoRes a).details = _
    rw [hraw]
    rfl

def c5Env : DvEnv :=
  { probeAction := fun s => s = "msdyn_SearchResourceAvailability",
    scheduleBoardRows := .ok [some "sb1"],
    invoke := fun _ _ => .ok (some { timeSlots := some [] }),
    selfServiceResult := fun _ =>
      { status := "ok", action := some "msdyn_FpsAction/403",
        slots := [witnessSelfServiceSlot] } }

def c5Args : CsArgs :=
  { requirement_id := some "req-1", window_startT := 1768464000, window_endT := 1768500000,
    duration_minutes := 120, max_slots := 8 }

/-- Counterexample to C5 as stated: the requirement-based search attempted
`msdyn_SearchResourceAvailability` and found no slots; the substituted
result's action is `fallback:msdyn_FpsAction/403` (the generic search's
action), not `fallback:msdyn_SearchResourceAvailability` as the claim
requires. -/
theorem fallback_action_counterexample :
    (search_field_service_availability c5Env (csPrimaryArgs false none c5Args)).action =
      some "msdyn_SearchResourceAvailability" ∧
    (search_field_service_availability c5Env (csPrimaryArgs false none c5Args)).slots = [] ∧
    (customerSearchAvailability c5Env false none 1768464000 c5Args).action =
      some "fallback:msdyn_FpsAction/403" ∧
    (some ("fallback:msdyn_FpsAction/403") : Option String) ≠
      some ("fallback:" ++ "msdyn_SearchResourceAvailability") := by
  decide

/-- Witness for the amended C5 at the same concrete input. -/
theorem fallback_action_amended_witness :
    (customerSearchAvailability c5Env false none 1768464000 c5Args).action =
      some ("fallback:" ++
        pyShowOptStr (search_field_service_availability c5Env (csGenericArgs none c5Args)).action) ∧
    (customerSearchAvailability c5Env false none 1768464000 c5Args).details =
      JVal.obj
        [("requirement_based",
          subReport (search_field_service_availability c5Env (csPrimaryArgs false none c5Args))),
         ("generic", subReport (search_field_service_availability c5Env (csGenericArgs none c5Args)))] :=
  fallback_action_amended c5Env none 1768464000 c5Args (by decide) (by decide) (by decide)

/-! ## Claim C4: the requirement branch fails closed -/

theorem sfsa_requirement_glue (env : DvEnv) (a : FsaArgs) (r : String)
    (ha : a.requirement_id = some r) (hr : r ≠ "") :
    search_field_service_availability env a = requirementBranch env a r := by
  unfold search_field_service_availability
  rw [ha]
  dsimp only
  rw [if_neg hr]

theorem requirement_branch_sb_error (env : DvEnv) (a : FsaArgs) (r : String)
    (sbErr : Option String)
    (htry : try_get_schedule_board_setting_id env = (none, sbErr)) :
    requirementBranch env a r =
      { status := "error", action := none,
        message := some "Unable to load Schedule Board Setting id required for requirement-based availability.",
        details := JVal.obj (jStrEntries (reqErrs0 sbErr)), slots := [],
        rawJ := JVal.obj [("action_errors", JVal.obj (jStrEntries (reqErrs0 sbErr)))] } := by
  unfold requirementBranch
  rw [htry]

def actErrEntry (action : String) : Option String → List (String × String)
  | some e => [(action, e)]
  | none => []

theorem requirement_branch_no_slots (env : DvEnv) (a : FsaArgs) (r sbid : String)
    (sbErr : Option String)
    (htry : try_get_schedule_board_setting_id env = (some sbid, sbErr))
    (hL : env.probeAction "msdyn_SearchResourceAvailability" = true →
      (try_requirement_based_action env "msdyn_SearchResourceAvailability" a.max_time_slots
        (fsaOnlyResourceNorm a.only_bookable_resource_id)).2 = [])
    (hV : env.probeAction "msdyn_SearchResourceAvailabilityV2" = true →
      (try_requirement_based_action env "msdyn_SearchResourceAvailabilityV2" a.max_time_slots
        (fsaOnlyResourceNorm a.only_bookable_resource_id)).2 = []) :
    requirementBranch env a r =
      { status := "error",
        action :=
          if env.probeAction "msdyn_SearchResourceAvailabilityV2" then
            some "msdyn_SearchResourceAvailabilityV2"
          else if env.probeAction "msdyn_SearchResourceAvailability" then
            some "msdyn_SearchResourceAvailability"
          else none,
        message := some "Requirement-based availability returned no slots.",
        details := JVal.obj (jStrEntries
            (reqErrs0 sbErr ++
              (if env.probeAction "msdyn_SearchResourceAvailability" then
                actErrEntry "msdyn_SearchResourceAvailability"
                  (try_requirement_based_action env "msdyn_SearchResourceAvailability"
                    a.max_time_slots (fsaOnlyResourceNorm a.only_bookable_resource_id)).1
              else []) ++
              (if env.probeAction "msdyn_SearchResourceAvailabilityV2" then
                actErrEntry "msdyn_SearchResourceAvailabilityV2"
                  (try_requirement_based_action env "msdyn_SearchResourceAvailabilityV2"
                    a.max_time_slots (fsaOnlyResourceNorm a.only_bookable_resource_id)).1
              else [])) ++
          [("attempted_actions", JVal.arr
              (((if env.probeAction "msdyn_SearchResourceAvailability" then
                  ["msdyn_SearchResourceAvailability"] else []) ++
                (if env.probeAction "msdyn_SearchResourceAvailabilityV2" then
                  ["msdyn_SearchResourceAvailabilityV2"] else [])).map JVal.s)),
            ("inputs", fsaInputsJ a (normalize_guid r))]),
        slots := [],
        rawJ := JVal.obj
          [("action_errors", JVal.obj (jStrEntries
              (reqErrs0 sbErr ++
                (if env.probeAction "msdyn_SearchResourceAvailability" then
                  actErrEntry "msdyn_SearchResourceAvailability"
                    (try_requirement_based_action env "msdyn_SearchResourceAvailability"
                      a.max_time_slots (fsaOnlyResourceNorm a.only_bookable_resource_id)).1
                else []) ++
                (if env.probeAction "msdyn_SearchResourceAvailabilityV2" then
                  actErrEntry "msdyn_SearchResourceAvailabilityV2"
                    (try_requirement_based_action env "msdyn_SearchResourceAvailabilityV2"
                      a.max_time_slots (fsaOnlyResourceNorm a.only_bookable_resource_id)).1
                else [])))),
            ("attempted_actions", JVal.arr
              (((if env.probeAction "msdyn_SearchResourceAvailability" then
                  ["msdyn_SearchResourceAvailability"] else []) ++
                (if env.probeAction "msdyn_SearchResourceAvailabilityV2" then
                  ["msdyn_SearchResourceAvailabilityV2"] else [])).map JVal.s))] } := by
  unfold requirementBranch
  rw [htry]
  dsimp only
  by_cases hpl : env.probeAction "msdyn_SearchResourceAvailability"
  · have hsL := hL hpl
    by_cases hpv : env.probeAction "msdyn_SearchResourceAvailabilityV2"
    · have hsV := hV hpv
      cases htL1 : (try_requirement_based_action env "msdyn_SearchResourceAvailability"
          a.max_time_slots (fsaOnlyResourceNorm a.only_bookable_resource_id)).1 <;>
        cases htV1 : (try_requirement_based_action env "msdyn_SearchResourceAvailabilityV2"
            a.max_time_slots (fsaOnlyResourceNorm a.only_bookable_resource_id)).1 <;>
          simp [hpl, hpv, hsL, hsV, actErrEntry, htL1, htV1, List.append_assoc]
    · cases htL1 : (try_requirement_based_action env "msdyn_SearchResourceAvailability"
          a.max_time_slots (fsaOnlyResourceNorm a.only_bookable_resource_id)).1 <;>
        simp [hpl, hpv, hsL, actErrEntry, htL1, List.append_assoc]
  · by_cases hpv : env.probeAction "msdyn_SearchResourceAvailabilityV2"
    · have hsV := hV hpv
      cases htV1 : (try_requirement_based_action env "msdyn_SearchResourceAvailabilityV2"
          a.max_time_slots (fsaOnlyResourceNorm a.only_bookable_resource_id)).1 <;>
        simp [hpl, hpv, hsV, actErrEntry, htV1, List.append_assoc]
    · simp [hpl, hpv, actErrEntry]

/-- C4. With a requirement id, `search_field_service_availability` runs only
the requirement branch; if the schedule-board-settings record cannot be
loaded it returns an error *result* (the raising query is caught and
recorded), and if both requirement-based actions are absent or yield zero
slots it returns an error result carrying the accumulated per-action
diagnostics — its `action` is never the requirement-group or UFX action, so
it never falls through to those scheduling models. -/
theorem requirement_search_fails_closed :
    (∀ (env : DvEnv) (a : FsaArgs) (r : String), a.requirement_id = some r → r ≠ "" →
      search_field_service_availability env a = requirementBranch env a r) ∧
    (∀ (env : DvEnv) (a : FsaArgs) (r : String) (sbErr : Option String),
      try_get_schedule_board_setting_id env = (none, sbErr) →
      (requirementBranch env a r).status = "error" ∧
      (requirementBranch env a r).slots = [] ∧
      (requirementBranch env a r).message =
        some "Unable to load Schedule Board Setting id required for requirement-based availability." ∧
      (requirementBranch env a r).details = JVal.obj (jStrEntries (reqErrs0 sbErr))) ∧
    (∀ (env : DvEnv) (a : FsaArgs) (r sbid : String) (sbErr : Option String),
      try_get_schedule_board_setting_id env = (some sbid, sbErr) →
      (env.probeAction "msdyn_SearchResourceAvailability" = true →
        (try_requirement_based_action env "msdyn_SearchResourceAvailability" a.max_time_slots
          (fsaOnlyResourceNorm a.only_bookable_resource_id)).2 = []) →
      (env.probeAction "msdyn_SearchResourceAvailabilityV2" = true →
        (try_requirement_based_action env "msdyn_SearchResourceAvailabilityV2" a.max_time_slots
          (fsaOnlyResourceNorm a.only_bookable_resource_id)).2 = []) →
      (requirementBranch env a r).status = "error" ∧
      (requirementBranch env a r).slots = [] ∧
      (requirementBranch env a r).message =
        some "Requirement-based availability returned no slots." ∧
      (requirementBranch env a r).action ≠ some "msdyn_SearchResourceAvailabilityForRequirementGroup" ∧
      (requirementBranch env a r).action ≠ some "msdyn_FpsAction/403") := by
  refine ⟨sfsa_requirement_glue, ?_, ?_⟩
  · intro env a r sbErr htry
    rw [requirement_branch_sb_error env a r sbErr htry]
    exact ⟨rfl, rfl, rfl, rfl⟩
  · intro env a r sbid sbErr htry hL hV
    rw [requirement_branch_no_slots env a r sbid sbErr htry hL hV]
    refine ⟨rfl, rfl, rfl, ?_, ?_⟩
    · dsimp only
      split
      · decide
      · split
        · decide
        · decide
    · dsimp only
      split
      · decide
      · split
        · decide
        · decide

def c4SbEnv : DvEnv :=
  { probeAction := fun _ => false,
    scheduleBoardRows := .error "HTTP 500 from msdyn_scheduleboardsettinges",
    invoke := fun _ _ => .error "offline",
    selfServiceResult := fun _ => { status := "ok" } }

/-- Witness for C4 at concrete inputs: the glue equality, the
settings-missing error result, and the zero-slot error result that does not
carry a fallback scheduling action. -/
theorem requirement_search_fails_closed_witness :
    (search_field_service_availability c5Env (csPrimaryArgs false none c5Args) =
      requirementBranch c5Env (csPrimaryArgs false none c5Args) "req-1") ∧
    ((requirementBranch c4SbEnv (csPrimaryArgs false none c5Args) "req-1").status = "error") ∧
    ((requirementBranch c5Env (csPrimaryArgs false none c5Args) "req-1").status = "error" ∧
      (requirementBranch c5Env (csPrimaryArgs false none c5Args) "req-1").action ≠
        some "msdyn_FpsAction/403") :=
  ⟨requirement_search_fails_closed.1 c5Env (csPrimaryArgs false none c5Args) "req-1"
      (by decide) (by decide),
   (requirement_search_fails_closed.2.1 c4SbEnv (csPrimaryArgs false none c5Args) "req-1"
      (some "HTTP 500 from msdyn_scheduleboardsettinges") (by decide)).1,
   (requirement_search_fails_closed.2.2 c5Env (csPrimaryArgs false none c5Args) "req-1"
      "sb1" none (by decide) (fun _ => by decide) (fun _ => by decide)).1,
   (requirement_search_fails_closed.2.2 c5Env (csPrimaryArgs false none c5Args) "req-1"
      "sb1" none (by decide) (fun _ => by decide) (fun _ => by decide)).2.2.2.2⟩

/-- Every result produced by the fresh-chain continuation leaves
`idempotent_replay` at its default `false`: only the replay branch of
`schedule_customer_request` ever sets it. -/
theorem scheduleFresh_replay_false (cfg : SvcCfg) (env : SchedEnv) (st : SchedState)
    (c : String) (ws we ps pe dm : Int) (cc : Bool) (key : String) :
    (scheduleFresh cfg env st c ws we ps pe dm cc key).1.idempotent_replay = false := by
  unfold scheduleFresh
  dsimp only
  repeat' split
  all_goals rfl

set_option maxHeartbeats 2000000 in
/-- C1. Idempotent replay: under a valid window and an in-window preferred
time, if the idempotency store holds an entry for the computed key whose
recorded booking id is truthy and strips to a non-empty id, then (a) when
that id still resolves in the vendor store the call returns the cached
chain marked `idempotent_replay := true` with the state unchanged — no new
Case/WorkOrder/Requirement/Booking records are created; (b) when it no
longer resolves, the stale entry is ignored and the call proceeds exactly
as a fresh request, whose result is never marked as a replay. -/
theorem idempotent_replay_guard
    (cfg : SvcCfg) (env : SchedEnv) (st : SchedState) (a : SchedArgs)
    (ws we ps pe : Int) (key : String) (existing : ScheduleResult) (bid : String)
    (hwin : parseWindowId a.window_id = some (ws, we))
    (hps : ps = env.parse_preferred_local a.preferred_start_local)
    (hpe : pe = ps + a.duration_minutes * 60)
    (hcontain : ¬ (ps < ws ∨ pe > we))
    (hkey : key = compute_idempotency_key
      (pyLower (pyRstripSlash env.base_url) ++ "|" ++ pyLower (pyStrip env.api_version))
      (normalize_guid a.contact_id) ws we ps a.duration_minutes a.scenario)
    (hlook : dictLookup st.idem key = some existing)
    (hbid : (existing.booking.bind (fun b => b.id)).getD "" = bid)
    (hstrip : pyStrip bid ≠ "") :
    (st.store.bookings.contains (pyStrip bid) = true →
      schedule_customer_request cfg env st a =
        (Except.ok { existing with idempotent_replay := true }, st)) ∧
    (st.store.bookings.contains (pyStrip bid) = false →
      ∃ r s2,
        scheduleFresh cfg env st (normalize_guid a.contact_id) ws we ps pe
          a.duration_minutes a.create_case key = (r, s2) ∧
        schedule_customer_request cfg env st a = (Except.ok r, s2) ∧
        r.idempotent_replay = false) := by
  subst hps
  subst hpe
  subst hkey
  subst hbid
  have h1 : (existing.booking.bind (fun b => b.id)).getD "" ≠ "" := by
    intro he
    exact hstrip (by rw [he]; decide)
  constructor
  · intro hcont
    unfold schedule_customer_request
    rw [hwin]
    dsimp only
    rw [if_neg hcontain]
    try dsimp only
    rw [hlook]
    try dsimp only
    rw [if_pos h1]
    try dsimp only
    rw [if_pos hstrip, if_pos hcont]
  · intro hcont
    rcases hp : scheduleFresh cfg env st (normalize_guid a.contact_id) ws we
        (env.parse_preferred_local a.preferred_start_local)
        (env.parse_preferred_local a.preferred_start_local + a.duration_minutes * 60)
        a.duration_minutes a.create_case
        (compute_idempotency_key
          (pyLower (pyRstripSlash env.base_url) ++ "|" ++ pyLower (pyStrip env.api_version))
          (normalize_guid a.contact_id) ws we
          (env.parse_preferred_local a.preferred_start_local) a.duration_minutes a.scenario)
      with ⟨r, s2⟩
    refine ⟨r, s2, rfl, ?_, ?_⟩
    · unfold schedule_customer_request
      rw [hwin]
      dsimp only
      rw [if_neg hcontain]
      try dsimp only
      rw [hlook]
      try dsimp only
      rw [if_pos h1]
      try dsimp only
      rw [if_pos hstrip, hcont]
      rw [if_neg Bool.false_ne_true]
      rw [hp]
    · have h2 := scheduleFresh_replay_false cfg env st (normalize_guid a.contact_id) ws we
        (env.parse_preferred_local a.preferred_start_local)
        (env.parse_preferred_local a.preferred_start_local + a.duration_minutes * 60)
        a.duration_minutes a.create_case
        (compute_idempotency_key
          (pyLower (pyRstripSlash env.base_url) ++ "|" ++ pyLower (pyStrip env.api_version))
          (normalize_guid a.contact_id) ws we
          (env.parse_preferred_local a.preferred_start_local) a.duration_minutes a.scenario)
      rw [hp] at h2
      exact h2

/-- A vendor environment that answers nothing: no actions probe true, no
settings rows, failing invoke. Used by orchestrator-level witnesses whose
scenarios never reach the availability search. -/
def dvIdle : DvEnv :=
  { probeAction := fun _ => false,
    scheduleBoardRows := .error "offline",
    invoke := fun _ _ => .error "offline",
    selfServiceResult := fun _ => { status := "ok" } }

def c1Cfg : SvcCfg := { demo_fast := true, demo_bookable_resource_id := some "res-9" }

def c1Env : SchedEnv :=
  { dv := dvIdle,
    base_url := "https://org.example.com/",
    api_version := "v9.2",
    parse_preferred_local := fun _ => 1768467600,
    waitCandidates := fun _ => [],
    bookingOutcome := .ok true }

def c1Args : SchedArgs :=
  { contact_id := "C-42",
    window_id := "2026-01-15T08:00:00+00:00|2026-01-15T18:00:00+00:00",
    preferred_start_local := "2026-01-15T09:00:00",
    duration_minutes := 60 }

def c1Key : String :=
  compute_idempotency_key
    (pyLower (pyRstripSlash c1Env.base_url) ++ "|" ++ pyLower (pyStrip c1Env.api_version))
    (normalize_guid c1Args.contact_id) 1768464000 1768500000 1768467600
    c1Args.duration_minutes c1Args.scenario

def c1Existing : ScheduleResult :=
  { status := "ok",
    caseId := some "case-old", workOrderId := some "wo-old",
    requirementId := some "req-old",
    booking := some { id := some "b1", startS := "2026-01-15T09:00:00+00:00", endS := "2026-01-15T10:00:00+00:00" } }

def c1St : SchedState :=
  { store := { nextId := 7, cases := ["case-old"], workOrders := ["wo-old"], bookings := ["b1"] },
    idem := [(c1Key, c1Existing)] }

def c1StaleSt : SchedState :=
  { store := { nextId := 7, cases := ["case-old"], workOrders := ["wo-old"], bookings := [] },
    idem := [(c1Key, c1Existing)] }

/-- Looking a key up in an association list headed by that key returns the
head value. -/
theorem dictLookup_head {α : Type} (k : String) (v : α) (l : List (String × α)) :
    dictLookup ((k, v) :: l) k = some v := by
  unfold dictLookup
  rw [List.find?_cons_of_pos _ (by simp)]

/-- Witness for C1: with the cached booking id still present in the vendor
store the call replays the cached chain with the state untouched; with the
booking removed the same call runs the fresh-chain continuation, whose
result is not marked as a replay. -/
theorem idempotent_replay_guard_witness :
    (schedule_customer_request c1Cfg c1Env c1St c1Args =
      (Except.ok { c1Existing with idempotent_replay := true }, c1St)) ∧
    (∃ r s2,
      scheduleFresh c1Cfg c1Env c1StaleSt (normalize_guid c1Args.contact_id)
        1768464000 1768500000 1768467600 1768471200
        c1Args.duration_minutes c1Args.create_case c1Key = (r, s2) ∧
      schedule_customer_request c1Cfg c1Env c1StaleSt c1Args = (Except.ok r, s2) ∧
      r.idempotent_replay = false) :=
  ⟨(idempotent_replay_guard c1Cfg c1Env c1St c1Args 1768464000 1768500000 1768467600 1768471200
      c1Key c1Existing "b1" (by decide) rfl (by decide) (by decide) rfl (dictLookup_head c1Key c1Existing []) rfl (by decide)).1
      (by decide),
   (idempotent_replay_guard c1Cfg c1Env c1StaleSt c1Args 1768464000 1768500000 1768467600 1768471200
      c1Key c1Existing "b1" (by decide) rfl (by decide) (by decide) rfl (dictLookup_head c1Key c1Existing []) rfl (by decide)).2
      (by decide)⟩

set_option maxHeartbeats 2000000 in
/-- C7. When the bounded poll for a vendor-auto-created Resource
Requirement comes back empty, `schedule_customer_request` returns an error
result that carries the already-created Case id (when a case was requested)
and the Work Order id plus the diagnostic hint, and those records remain
durably in the vendor store — no booking is created and the idempotency
store is untouched, so a caller can retry against the existing records. -/
theorem requirement_wait_timeout_preserves_ids
    (cfg : SvcCfg) (env : SchedEnv) (st : SchedState) (a : SchedArgs)
    (ws we ps pe : Int) (key : String)
    (hwin : parseWindowId a.window_id = some (ws, we))
    (hps : ps = env.parse_preferred_local a.preferred_start_local)
    (hpe : pe = ps + a.duration_minutes * 60)
    (hcontain : ¬ (ps < ws ∨ pe > we))
    (hkey : key = compute_idempotency_key
      (pyLower (pyRstripSlash env.base_url) ++ "|" ++ pyLower (pyStrip env.api_version))
      (normalize_guid a.contact_id) ws we ps a.duration_minutes a.scenario)
    (hmiss : dictLookup st.idem key = none)
    (hwait : ∀ wo, env.waitCandidates wo = []) :
    (a.create_case = true →
      ∃ st2 : SchedState,
        schedule_customer_request cfg env st a =
          (Except.ok
            { status := "error",
              message := some "Work Order was created, but no auto-created Resource Requirement was found.",
              caseId := some (freshId st.store.nextId),
              workOrderId := some (freshId (st.store.nextId + 1)),
              details := JVal.obj
                [("hint", JVal.s "Check Field Service settings/automation for work order requirement creation."),
                 ("candidates", JVal.arr [])] }, st2) ∧
        freshId st.store.nextId ∈ st2.store.cases ∧
        freshId (st.store.nextId + 1) ∈ st2.store.workOrders ∧
        st2.store.bookings = st.store.bookings ∧
        st2.idem = st.idem) ∧
    (a.create_case = false →
      ∃ st2 : SchedState,
        schedule_customer_request cfg env st a =
          (Except.ok
            { status := "error",
              message := some "Work Order was created, but no auto-created Resource Requirement was found.",
              caseId := none,
              workOrderId := some (freshId st.store.nextId),
              details := JVal.obj
                [("hint", JVal.s "Check Field Service settings/automation for work order requirement creation."),
                 ("candidates", JVal.arr [])] }, st2) ∧
        freshId st.store.nextId ∈ st2.store.workOrders ∧
        st2.store.bookings = st.store.bookings ∧
        st2.idem = st.idem) := by
  subst hps
  subst hpe
  subst hkey
  constructor
  · intro hcc
    unfold schedule_customer_request
    rw [hwin]
    dsimp only
    rw [if_neg hcontain]
    try dsimp only
    rw [hmiss]
    try dsimp only
    unfold scheduleFresh
    try dsimp only
    rw [hcc]
    rw [if_pos rfl]
    dsimp only [storeCreateCase, storeCreateWorkOrder]
    rw [hwait]
    unfold get_or_wait_for_requirement_id_for_work_order
    try dsimp only [List.isEmpty]
    rw [if_pos rfl]
    try dsimp only
    exact ⟨_, rfl, by simp, by simp, rfl, rfl⟩
  · intro hcc
    unfold schedule_customer_request
    rw [hwin]
    dsimp only
    rw [if_neg hcontain]
    try dsimp only
    rw [hmiss]
    try dsimp only
    unfold scheduleFresh
    try dsimp only
    rw [hcc]
    rw [if_neg Bool.false_ne_true]
    dsimp only [storeCreateWorkOrder]
    rw [hwait]
    unfold get_or_wait_for_requirement_id_for_work_order
    try dsimp only [List.isEmpty]
    rw [if_pos rfl]
    try dsimp only
    exact ⟨_, rfl, by simp, rfl, rfl⟩

def c7Cfg : SvcCfg := { demo_fast := true }

def c7Env : SchedEnv :=
  { dv := dvIdle,
    base_url := "https://org7.example.com",
    api_version := "v9.2",
    parse_preferred_local := fun _ => 1768467600,
    waitCandidates := fun _ => [],
    bookingOutcome := .ok false }

def c7Args : SchedArgs :=
  { contact_id := "c7-contact",
    window_id := "2026-01-15T08:00:00+00:00|2026-01-15T18:00:00+00:00",
    preferred_start_local := "2026-01-15T09:00:00",
    duration_minutes := 60 }

def c7St : SchedState := { store := {}, idem := [] }

def c7Key : String :=
  compute_idempotency_key
    (pyLower (pyRstripSlash c7Env.base_url) ++ "|" ++ pyLower (pyStrip c7Env.api_version))
    (normalize_guid c7Args.contact_id) 1768464000 1768500000 1768467600
    c7Args.duration_minutes c7Args.scenario

/-- Witness for C7: an environment whose requirement poll finds no
candidates makes the orchestrator return the timeout error carrying the
freshly created Case and Work Order ids, both durably stored. -/
theorem requirement_wait_timeout_witness :
    ∃ st2 : SchedState,
      schedule_customer_request c7Cfg c7Env c7St c7Args =
        (Except.ok
          { status := "error",
            message := some "Work Order was created, but no auto-created Resource Requirement was found.",
            caseId := some (freshId c7St.store.nextId),
            workOrderId := some (freshId (c7St.store.nextId + 1)),
            details := JVal.obj
              [("hint", JVal.s "Check Field Service settings/automation for work order requirement creation."),
               ("candidates", JVal.arr [])] }, st2) ∧
      freshId c7St.store.nextId ∈ st2.store.cases ∧
      freshId (c7St.store.nextId + 1) ∈ st2.store.workOrders ∧
      st2.store.bookings = c7St.store.bookings ∧
      st2.idem = c7St.idem :=
  (requirement_wait_timeout_preserves_ids c7Cfg c7Env c7St c7Args 1768464000 1768500000
      1768467600 1768471200 c7Key (by decide) rfl (by decide) (by decide) rfl rfl
      (fun _ => rfl)).1 rfl
